/-
Verification of the shadow-agents-platform service layer.

This file gives a shallow embedding, in Lean 4, of the business-rule layer of
the multi-tenant SaaS console backend found under `api/`: the domain services
(AuthService, TenantService, AppService, ModelProviderService), the thin
repositories they call, the credential encode/decode pair on the ModelProvider
entity, and the SSE stream parsing of the OpenAI-compatible chat adapter.

Conventions of the embedding:
- UUIDs are modelled as natural numbers; fresh ids come from per-entity
  counters in the database state (`uuid4` in the source yields a fresh id; the
  counter model captures freshness).
- The relational store is the record `DB`; each repository method is a pure
  function over it.  SQLAlchemy commits happen per repository call in the
  source, so each service method is a function `DB -> Except Err A × DB`
  threading the store; an exception leaves the store exactly as the last
  repository write left it.
- Collaborator libraries are modelled at their interfaces: the password hash
  check (`werkzeug.check_password_hash`) is a boolean oracle; the JWT codec
  (`pyjwt`) is a record pairing claims with the signing key, whose decode
  checks the key and the expiry; `json.dumps` / `json.loads` are modelled by
  an executable printer and parser over an inductive `Json` value type
  (integer numerals; `ensure_ascii=False`-style escaping), proved to be
  mutually inverse; the provider adapters' credential validation, which
  performs live HTTP, is a function-typed oracle argument.
- Python service exceptions become the inductive `Err`; raising is returning
  `Except.error`.
-/

import Mathlib

set_option linter.unusedVariables false

/-! ## JSON values (the model of Python dict/list/str/int/bool/None data) -/

/-- A JSON value: the image of `json.loads` restricted to integer numerals. -/
inductive Json where
  | null : Json
  | bool (b : Bool) : Json
  | num (n : Int) : Json
  | str (s : String) : Json
  | arr (elems : List Json) : Json
  | obj (fields : List (String × Json)) : Json

/-- Dictionary lookup, `d[k]` / `d.get(k)` on a parsed JSON object. -/
def jlookup : List (String × Json) → String → Option Json
  | [], _ => none
  | (k, v) :: rest, key => if k = key then some v else jlookup rest key

/-- Python truthiness of a JSON-decoded value (`if content:`). -/
def Json.truthy : Json → Bool
  | .null => false
  | .bool b => b
  | .num n => n != 0
  | .str s => s != ""
  | .arr l => !l.isEmpty
  | .obj l => !l.isEmpty

/-! ## The JSON printer (model of `json.dumps` with default separators) -/

/-- One hexadecimal digit, lowercase, as `json.dumps` emits in escapes. -/
def hexChar (n : Nat) : Char :=
  if n < 10 then Char.ofNat (48 + n) else Char.ofNat (87 + n)

/-- How `json.dumps` writes one character inside a string literal: quote and
backslash are escaped, the five short escapes are used for their control
characters, other control characters become `\u00XX`, everything else is
written as itself (`ensure_ascii=False` style). -/
def printChar (c : Char) : List Char :=
  if c = '"' then ['\\', '"']
  else if c = '\\' then ['\\', '\\']
  else if c = '\n' then ['\\', 'n']
  else if c = '\t' then ['\\', 't']
  else if c = '\r' then ['\\', 'r']
  else if c = '\x08' then ['\\', 'b']
  else if c = '\x0c' then ['\\', 'f']
  else if c.toNat < 32 then
    ['\\', 'u', '0', '0', hexChar (c.toNat / 16), hexChar (c.toNat % 16)]
  else [c]

/-- A JSON string literal: quote, escaped characters, quote. -/
def printString (s : String) : List Char :=
  '"' :: (s.data.flatMap printChar ++ ['"'])

/-- Decimal digits of a natural number. -/
def natChars (n : Nat) : List Char :=
  if h : n < 10 then [Char.ofNat (48 + n)]
  else natChars (n / 10) ++ [Char.ofNat (48 + n % 10)]
decreasing_by exact Nat.div_lt_self (by omega) (by omega)

/-- An integer numeral as `json.dumps` writes it. -/
def intChars (i : Int) : List Char :=
  if i < 0 then '-' :: natChars i.natAbs else natChars i.toNat

mutual

/-- The characters `json.dumps` produces for a value (default separators
`", "` and `": "`, insertion order preserved for objects). -/
def printJson : Json → List Char
  | .num i => intChars i
  | .str s => printString s
  | .arr l => '[' :: (printElems l ++ [']'])
  | .obj l => '\x7b' :: (printMembers l ++ ['\x7d'])
  | .bool false => ['f', 'a', 'l', 's', 'e']
  | .bool true => ['t', 'r', 'u', 'e']
  | .null => ['n', 'u', 'l', 'l']

/-- Array elements joined by `", "`. -/
def printElems : List Json → List Char
  | [] => []
  | j :: js => printJson j ++ printElemsRest js

/-- The tail of a joined element list: each further element after `", "`. -/
def printElemsRest : List Json → List Char
  | [] => []
  | j :: js => ',' :: ' ' :: (printJson j ++ printElemsRest js)

/-- Object members joined by `", "`, each as `"key": value`. -/
def printMembers : List (String × Json) → List Char
  | [] => []
  | (k, v) :: ps => printString k ++ ':' :: ' ' :: (printJson v ++ printMembersRest ps)

/-- The tail of a joined member list. -/
def printMembersRest : List (String × Json) → List Char
  | [] => []
  | (k, v) :: ps => ',' :: ' ' :: (printString k ++ ':' :: ' ' :: (printJson v ++ printMembersRest ps))

end

/-! ## The JSON parser (model of `json.loads`, adequate on `json.dumps` images) -/

/-- The whitespace characters `json.loads` skips between tokens. -/
def isJsonWs (c : Char) : Bool :=
  c = ' ' || c = '\t' || c = '\n' || c = '\r'

/-- Skip inter-token whitespace. -/
def skipWs : List Char → List Char
  | [] => []
  | c :: cs => if isJsonWs c then skipWs cs else c :: cs

/-- The value of a hexadecimal digit character, if it is one. -/
def hexVal : Char → Option Nat
  | c =>
    if '0' ≤ c && c ≤ '9' then some (c.toNat - 48)
    else if 'a' ≤ c && c ≤ 'f' then some (c.toNat - 87)
    else if 'A' ≤ c && c ≤ 'F' then some (c.toNat - 55)
    else none

/-- The character a short escape letter denotes, if the letter is legal. -/
def unescape : Char → Option Char
  | c =>
    if c = '"' then some '"'
    else if c = '\\' then some '\\'
    else if c = '/' then some '/'
    else if c = 'n' then some '\n'
    else if c = 't' then some '\t'
    else if c = 'r' then some '\r'
    else if c = 'b' then some '\x08'
    else if c = 'f' then some '\x0c'
    else none

/-- Parse the body of a string literal (the opening quote already consumed):
returns the decoded characters and the input after the closing quote. -/
def parseStringBody : List Char → Option (List Char × List Char)
  | [] => none
  | c :: cs =>
    if c = '"' then some ([], cs)
    else if c = '\\' then
      match cs with
      | [] => none
      | e :: cs1 =>
        if e = 'u' then
          match cs1 with
          | a :: b :: c2 :: d :: cs2 =>
            match hexVal a, hexVal b, hexVal c2, hexVal d with
            | some x, some y, some z, some w =>
              (parseStringBody cs2).map
                (fun r => (Char.ofNat (((x * 16 + y) * 16 + z) * 16 + w) :: r.1, r.2))
            | _, _, _, _ => none
          | _ => none
        else
          match unescape e with
          | some u => (parseStringBody cs1).map (fun r => (u :: r.1, r.2))
          | none => none
    else (parseStringBody cs).map (fun r => (c :: r.1, r.2))

/-- Consume a maximal run of decimal digits, folding them onto `acc`. -/
def parseDigits : Nat → List Char → Nat × List Char
  | acc, [] => (acc, [])
  | acc, c :: cs =>
    if c.isDigit then parseDigits (acc * 10 + (c.toNat - 48)) cs else (acc, c :: cs)

/-- Parse a natural numeral: at least one digit, then a maximal digit run. -/
def parseNat : List Char → Option (Nat × List Char)
  | [] => none
  | c :: cs => if c.isDigit then some (parseDigits (c.toNat - 48) cs) else none

/-- Check that the input starts with the expected characters and drop them. -/
def expectChars : List Char → List Char → Option (List Char)
  | [], cs => some cs
  | _ :: _, [] => none
  | e :: es, c :: cs => if c = e then expectChars es cs else none

mutual

/-- Fueled recursive-descent JSON value parser (the model of `json.loads`):
returns the value and the unconsumed input. -/
def parseVal : Nat → List Char → Option (Json × List Char)
  | 0, _ => none
  | fuel + 1, cs =>
    match skipWs cs with
    | [] => none
    | c :: cs1 =>
      if c = 'n' then (expectChars ['u', 'l', 'l'] cs1).map (fun r => (Json.null, r))
      else if c = 't' then (expectChars ['r', 'u', 'e'] cs1).map (fun r => (Json.bool true, r))
      else if c = 'f' then (expectChars ['a', 'l', 's', 'e'] cs1).map (fun r => (Json.bool false, r))
      else if c = '"' then
        (parseStringBody cs1).map (fun r => (Json.str (String.mk r.1), r.2))
      else if c = '[' then
        (parseElems fuel cs1).map (fun r => (Json.arr r.1, r.2))
      else if c = '\x7b' then
        (parseMembers fuel cs1).map (fun r => (Json.obj r.1, r.2))
      else if c = '-' then
        (parseNat cs1).map (fun r => (Json.num (-(r.1 : Int)), r.2))
      else if c.isDigit then
        let r := parseDigits (c.toNat - 48) cs1
        some (Json.num (r.1 : Int), r.2)
      else none

/-- Parse array elements up to and including the closing bracket. -/
def parseElems : Nat → List Char → Option (List Json × List Char)
  | 0, _ => none
  | fuel + 1, cs =>
    match skipWs cs with
    | [] => none
    | c :: cs1 =>
      if c = ']' then some ([], cs1)
      else
        match parseVal fuel (c :: cs1) with
        | none => none
        | some (v, cs2) =>
          match skipWs cs2 with
          | [] => none
          | c2 :: cs3 =>
            if c2 = ',' then (parseElems fuel cs3).map (fun r => (v :: r.1, r.2))
            else if c2 = ']' then some ([v], cs3)
            else none

/-- Parse object members up to and including the closing brace. -/
def parseMembers : Nat → List Char → Option (List (String × Json) × List Char)
  | 0, _ => none
  | fuel + 1, cs =>
    match skipWs cs with
    | [] => none
    | c :: cs1 =>
      if c = '\x7d' then some ([], cs1)
      else if c = '"' then
        match parseStringBody cs1 with
        | none => none
        | some (k, cs2) =>
          match skipWs cs2 with
          | ':' :: cs3 =>
            match parseVal fuel cs3 with
            | none => none
            | some (v, cs4) =>
              match skipWs cs4 with
              | [] => none
              | c2 :: cs5 =>
                if c2 = ',' then
                  (parseMembers fuel cs5).map (fun r => ((String.mk k, v) :: r.1, r.2))
                else if c2 = '\x7d' then some ([(String.mk k, v)], cs5)
                else none
          | _ => none
      else none

end

/-- Parse a complete JSON document: one value, then only whitespace.  The fuel
`s.length + 2` dominates the nesting depth of any value `s` can denote. -/
def parseJson (s : String) : Option Json :=
  match parseVal (s.length + 2) s.data with
  | some (j, rest) => if skipWs rest = [] then some j else none
  | none => none

/-! ## Printer/parser inversion: `json.loads` undoes `json.dumps` -/

/-- A continuation list that cannot extend a numeral: its head, if any, is not
a decimal digit.  Every context a printed value appears in satisfies it. -/
def numSafe (l : List Char) : Prop :=
  ∀ c, l.head? = some c → c.isDigit = false

theorem numSafe_nil : numSafe [] := by intro c h; cases h

theorem numSafe_cons {c : Char} {l : List Char} (h : c.isDigit = false) :
    numSafe (c :: l) := by
  intro d hd
  cases hd
  exact h

theorem skipWs_cons_of_not_ws {c : Char} {l : List Char} (h : isJsonWs c = false) :
    skipWs (c :: l) = c :: l := by
  simp [skipWs, h]

theorem expectChars_append (l rest : List Char) :
    expectChars l (l ++ rest) = some rest := by
  induction l with
  | nil => rfl
  | cons c cs ih => simp [expectChars, ih]

theorem hexVal_hexChar : ∀ n, n < 16 → hexVal (hexChar n) = some n := by decide

theorem parseStringBody_printChar (c : Char) (t : List Char) :
    parseStringBody (printChar c ++ t) =
      (parseStringBody t).map (fun r => (c :: r.1, r.2)) := by
  by_cases h1 : c = '"'
  · subst h1; conv_lhs => unfold parseStringBody
    simp [printChar, unescape]
  by_cases h2 : c = '\\'
  · subst h2; conv_lhs => unfold parseStringBody
    simp [printChar, unescape]
  by_cases h3 : c = '\n'
  · subst h3; conv_lhs => unfold parseStringBody
    simp [printChar, unescape]
  by_cases h4 : c = '\t'
  · subst h4; conv_lhs => unfold parseStringBody
    simp [printChar, unescape]
  by_cases h5 : c = '\r'
  · subst h5; conv_lhs => unfold parseStringBody
    simp [printChar, unescape]
  by_cases h6 : c = '\x08'
  · subst h6; conv_lhs => unfold parseStringBody
    simp [printChar, unescape]
  by_cases h7 : c = '\x0c'
  · subst h7; conv_lhs => unfold parseStringBody
    simp [printChar, unescape]
  by_cases h8 : c.toNat < 32
  · have hdiv : c.toNat / 16 < 16 := by omega
    have hmod : c.toNat % 16 < 16 := by omega
    simp only [printChar, if_neg h1, if_neg h2, if_neg h3, if_neg h4, if_neg h5,
      if_neg h6, if_neg h7, if_pos h8]
    conv_lhs => unfold parseStringBody
    simp only [List.cons_append, List.nil_append,
      show hexVal '0' = some 0 from by decide, hexVal_hexChar _ hdiv, hexVal_hexChar _ hmod]
    have hofn : Char.ofNat (((0 * 16 + 0) * 16 + c.toNat / 16) * 16 + c.toNat % 16) = c := by
      have he : ((0 * 16 + 0) * 16 + c.toNat / 16) * 16 + c.toNat % 16 = c.toNat := by omega
      rw [he, Char.ofNat_toNat]
    simp only [hofn]
    simp
  · simp only [printChar, if_neg h1, if_neg h2, if_neg h3, if_neg h4, if_neg h5,
      if_neg h6, if_neg h7, if_neg h8]
    conv_lhs => unfold parseStringBody
    simp [h1, h2]

theorem parseStringBody_print (l : List Char) (rest : List Char) :
    parseStringBody (l.flatMap printChar ++ '"' :: rest) = some (l, rest) := by
  induction l with
  | nil =>
    conv_lhs => unfold parseStringBody
    simp
  | cons c cs ih =>
    rw [List.flatMap_cons, List.append_assoc, parseStringBody_printChar, ih]
    rfl

theorem natChars_ne_nil (n : Nat) : natChars n ≠ [] := by
  unfold natChars
  split
  · simp
  · simp

theorem digitChar_isDigit : ∀ n, n < 10 → (Char.ofNat (48 + n)).isDigit = true := by decide

theorem digitChar_toNat : ∀ n, n < 10 → (Char.ofNat (48 + n)).toNat - 48 = n := by decide

theorem natChars_digits (n : Nat) : ∀ c ∈ natChars n, c.isDigit = true := by
  induction n using Nat.strong_induction_on with
  | _ n ih =>
    unfold natChars
    split
    · next h =>
      intro c hc
      simp only [List.mem_singleton] at hc
      subst hc
      exact digitChar_isDigit n h
    · next h =>
      intro c hc
      rw [List.mem_append] at hc
      rcases hc with hc | hc
      · exact ih (n / 10) (Nat.div_lt_self (by omega) (by omega)) c hc
      · simp only [List.mem_singleton] at hc
        subst hc
        exact digitChar_isDigit (n % 10) (Nat.mod_lt _ (by omega))

theorem parseDigits_stop {rest : List Char} (h : numSafe rest) (acc : Nat) :
    parseDigits acc rest = (acc, rest) := by
  cases rest with
  | nil => rfl
  | cons c cs =>
    have := h c rfl
    simp [parseDigits, this]

theorem parseDigits_append (ds : List Char) (hd : ∀ c ∈ ds, c.isDigit = true) :
    ∀ acc rest, parseDigits acc (ds ++ rest) =
      parseDigits (ds.foldl (fun a c => a * 10 + (c.toNat - 48)) acc) rest := by
  induction ds with
  | nil => intro acc rest; rfl
  | cons c cs ih =>
    intro acc rest
    have hc := hd c (List.mem_cons_self c cs)
    simp only [List.cons_append, parseDigits, hc, if_pos, List.append_eq]
    rw [ih (fun d hdm => hd d (List.mem_cons_of_mem c hdm))]
    rfl

theorem foldl_natChars (n : Nat) :
    ∀ acc, (natChars n).foldl (fun a c => a * 10 + (c.toNat - 48)) acc =
      acc * 10 ^ (natChars n).length + n := by
  induction n using Nat.strong_induction_on with
  | _ n ih =>
    intro acc
    unfold natChars
    split
    · next h =>
      have hv : (Char.ofNat (48 + n)).toNat - 48 = n := digitChar_toNat n h
      simp [List.foldl, hv]
    · next h =>
      rw [List.foldl_append, ih (n / 10) (Nat.div_lt_self (by omega) (by omega)) acc]
      have hv : (Char.ofNat (48 + n % 10)).toNat - 48 = n % 10 :=
        digitChar_toNat (n % 10) (Nat.mod_lt _ (by omega))
      simp only [List.foldl, List.length_append, List.length_singleton, hv]
      rw [pow_succ]
      have : n / 10 * 10 + n % 10 = n := Nat.div_add_mod n 10 ▸ by omega
      ring_nf
      omega

theorem isDigit_toNat {c : Char} (h : c.isDigit = true) :
    48 ≤ c.toNat ∧ c.toNat ≤ 57 := by
  simp [Char.isDigit] at h
  exact h

theorem isDigit_ne {c d : Char} (h : c.isDigit = true)
    (hd : d.toNat < 48 ∨ 57 < d.toNat) : c ≠ d := by
  intro he
  subst he
  have := isDigit_toNat h
  omega

theorem isDigit_not_ws {c : Char} (h : c.isDigit = true) : isJsonWs c = false := by
  have h1 := isDigit_ne h (d := ' ') (by decide)
  have h2 := isDigit_ne h (d := '\t') (by decide)
  have h3 := isDigit_ne h (d := '\n') (by decide)
  have h4 := isDigit_ne h (d := '\r') (by decide)
  simp [isJsonWs, h1, h2, h3, h4]

theorem parseDigits_natChars {rest : List Char} (hsafe : numSafe rest)
    (n : Nat) {c : Char} {ds : List Char} (hn : natChars n = c :: ds) :
    parseDigits (c.toNat - 48) (ds ++ rest) = (n, rest) := by
  have hds : ∀ d ∈ ds, d.isDigit = true := fun d hd =>
    natChars_digits n d (hn ▸ List.mem_cons_of_mem c hd)
  rw [parseDigits_append ds hds, parseDigits_stop hsafe]
  have hfold := foldl_natChars n 0
  rw [hn] at hfold
  simp only [List.foldl, Nat.zero_mul, Nat.zero_add, Nat.zero_pow] at hfold
  rw [hfold]

/-- The first character a printed value starts with: never whitespace, never a
closing bracket or brace. -/
theorem printJson_head (j : Json) :
    ∃ c t, printJson j = c :: t ∧ isJsonWs c = false ∧ c ≠ ']' ∧ c ≠ '\x7d' := by
  cases j with
  | null => refine ⟨'n', _, rfl, ?_, ?_, ?_⟩ <;> decide
  | bool b =>
    cases b with
    | true => refine ⟨'t', _, rfl, ?_, ?_, ?_⟩ <;> decide
    | false => refine ⟨'f', _, rfl, ?_, ?_, ?_⟩ <;> decide
  | num i =>
    by_cases hneg : i < 0
    · exact ⟨'-', natChars i.natAbs, by simp [printJson, intChars, hneg], by decide,
        by decide, by decide⟩
    · obtain ⟨c, ds, hn⟩ : ∃ c ds, natChars i.toNat = c :: ds := by
        cases h : natChars i.toNat with
        | nil => exact absurd h (natChars_ne_nil _)
        | cons c ds => exact ⟨c, ds, rfl⟩
      have hdig : c.isDigit = true := natChars_digits _ c (hn ▸ List.mem_cons_self c ds)
      refine ⟨c, ds, by simp [printJson, intChars, hneg, hn], isDigit_not_ws hdig,
        isDigit_ne hdig (by decide), isDigit_ne hdig (by decide)⟩
  | str s => refine ⟨'"', _, rfl, ?_, ?_, ?_⟩ <;> decide
  | arr l => refine ⟨'[', _, rfl, ?_, ?_, ?_⟩ <;> decide
  | obj l => refine ⟨'\x7b', _, rfl, ?_, ?_, ?_⟩ <;> decide

mutual

/-- Fuel needed by the parser on the printed form of a value. -/
def jsize : Json → Nat
  | .null => 1
  | .bool _ => 1
  | .num _ => 1
  | .str _ => 1
  | .arr l => 1 + jsizeElems l
  | .obj l => 1 + jsizeMembers l

/-- Fuel needed on a printed element list. -/
def jsizeElems : List Json → Nat
  | [] => 1
  | j :: js => 1 + max (jsize j) (jsizeElems js)

/-- Fuel needed on a printed member list. -/
def jsizeMembers : List (String × Json) → Nat
  | [] => 1
  | (_, v) :: ps => 1 + max (jsize v) (jsizeMembers ps)

end

theorem jsize_pos (j : Json) : 1 ≤ jsize j := by
  cases j <;> simp [jsize]

theorem jsizeElems_pos (l : List Json) : 1 ≤ jsizeElems l := by
  cases l <;> simp [jsizeElems]

theorem jsizeMembers_pos (l : List (String × Json)) : 1 ≤ jsizeMembers l := by
  cases l with
  | nil => simp [jsizeMembers]
  | cons p ps => cases p; simp [jsizeMembers]

theorem skipWs_space (l : List Char) : skipWs (' ' :: l) = skipWs l := by
  simp [skipWs, isJsonWs]

theorem parseVal_space (fuel : Nat) (l : List Char) :
    parseVal (fuel + 1) (' ' :: l) = parseVal (fuel + 1) l := by
  conv_lhs => unfold parseVal
  conv_rhs => unfold parseVal
  rw [skipWs_space]

theorem parseElems_space (fuel : Nat) (l : List Char) :
    parseElems (fuel + 1) (' ' :: l) = parseElems (fuel + 1) l := by
  conv_lhs => unfold parseElems
  conv_rhs => unfold parseElems
  rw [skipWs_space]

theorem parseMembers_space (fuel : Nat) (l : List Char) :
    parseMembers (fuel + 1) (' ' :: l) = parseMembers (fuel + 1) l := by
  conv_lhs => unfold parseMembers
  conv_rhs => unfold parseMembers
  rw [skipWs_space]

theorem stringMk_data (s : String) : String.mk s.data = s := rfl

theorem numSafe_elemsRest (js : List Json) (rest : List Char) :
    numSafe (printElemsRest js ++ ']' :: rest) := by
  cases js with
  | nil => simp only [printElemsRest, List.nil_append]; exact numSafe_cons (by decide)
  | cons j2 js2 => simp only [printElemsRest, List.cons_append]; exact numSafe_cons (by decide)

theorem numSafe_membersRest (ps : List (String × Json)) (rest : List Char) :
    numSafe (printMembersRest ps ++ '\x7d' :: rest) := by
  cases ps with
  | nil => simp only [printMembersRest, List.nil_append]; exact numSafe_cons (by decide)
  | cons p ps2 =>
    cases p
    simp only [printMembersRest, List.cons_append]
    exact numSafe_cons (by decide)

theorem parse_print_aux : ∀ fuel : Nat,
    (∀ j rest, jsize j ≤ fuel → numSafe rest →
      parseVal fuel (printJson j ++ rest) = some (j, rest))
  ∧ (∀ l rest, jsizeElems l ≤ fuel →
      parseElems fuel (printElems l ++ ']' :: rest) = some (l, rest))
  ∧ (∀ l rest, jsizeMembers l ≤ fuel →
      parseMembers fuel (printMembers l ++ '\x7d' :: rest) = some (l, rest)) := by
  intro fuel
  induction fuel with
  | zero =>
    refine ⟨fun j rest hle _ => ?_, fun l rest hle => ?_, fun l rest hle => ?_⟩
    · exact absurd hle (by have := jsize_pos j; omega)
    · exact absurd hle (by have := jsizeElems_pos l; omega)
    · exact absurd hle (by have := jsizeMembers_pos l; omega)
  | succ fuel ih =>
    obtain ⟨ihV, ihE, ihM⟩ := ih
    refine ⟨fun j rest hle hsafe => ?_, fun l rest hle => ?_, fun l rest hle => ?_⟩
    · -- parseVal on a printed value
      cases j with
      | null =>
        conv_lhs => unfold parseVal
        simp [printJson, skipWs, isJsonWs, expectChars]
      | bool b =>
        cases b
        · conv_lhs => unfold parseVal
          simp [printJson, skipWs, isJsonWs, expectChars]
        · conv_lhs => unfold parseVal
          simp [printJson, skipWs, isJsonWs, expectChars]
      | str s =>
        have hp : printJson (.str s) ++ rest
            = '"' :: (s.data.flatMap printChar ++ '"' :: rest) := by
          simp [printJson, printString]
        rw [hp]
        conv_lhs => unfold parseVal
        rw [skipWs_cons_of_not_ws (by decide)]
        simp [parseStringBody_print]
      | num i =>
        by_cases hneg : i < 0
        · obtain ⟨c, ds, hn⟩ : ∃ c ds, natChars i.natAbs = c :: ds := by
            cases h : natChars i.natAbs with
            | nil => exact absurd h (natChars_ne_nil _)
            | cons c ds => exact ⟨c, ds, rfl⟩
          have hdig : c.isDigit = true := natChars_digits _ c (hn ▸ List.mem_cons_self c ds)
          have hp : printJson (.num i) ++ rest = '-' :: c :: (ds ++ rest) := by
            simp [printJson, intChars, hneg, hn]
          rw [hp]
          conv_lhs => unfold parseVal
          rw [skipWs_cons_of_not_ws (by decide)]
          simp [parseNat, hdig, parseDigits_natChars hsafe i.natAbs hn, abs_of_neg hneg]
        · obtain ⟨c, ds, hn⟩ : ∃ c ds, natChars i.toNat = c :: ds := by
            cases h : natChars i.toNat with
            | nil => exact absurd h (natChars_ne_nil _)
            | cons c ds => exact ⟨c, ds, rfl⟩
          have hdig : c.isDigit = true := natChars_digits _ c (hn ▸ List.mem_cons_self c ds)
          have hp : printJson (.num i) ++ rest = c :: (ds ++ rest) := by
            simp [printJson, intChars, hneg, hn]
          rw [hp]
          conv_lhs => unfold parseVal
          rw [skipWs_cons_of_not_ws (isDigit_not_ws hdig)]
          simp only [if_neg (isDigit_ne hdig (d := 'n') (by decide)),
            if_neg (isDigit_ne hdig (d := 't') (by decide)),
            if_neg (isDigit_ne hdig (d := 'f') (by decide)),
            if_neg (isDigit_ne hdig (d := '"') (by decide)),
            if_neg (isDigit_ne hdig (d := '[') (by decide)),
            if_neg (isDigit_ne hdig (d := '\x7b') (by decide)),
            if_neg (isDigit_ne hdig (d := '-') (by decide)), if_pos hdig]
          have hnum : (((i.toNat : Nat) : Int)) = i := Int.toNat_of_nonneg (by omega)
          simp [parseDigits_natChars hsafe i.toNat hn, hnum]
      | arr l =>
        have hp : printJson (.arr l) ++ rest = '[' :: (printElems l ++ ']' :: rest) := by
          simp [printJson]
        rw [hp]
        conv_lhs => unfold parseVal
        rw [skipWs_cons_of_not_ws (by decide)]
        have hsz : jsizeElems l ≤ fuel := by
          have : jsize (.arr l) = 1 + jsizeElems l := by simp [jsize]
          omega
        simp [ihE l rest hsz]
      | obj l =>
        have hp : printJson (.obj l) ++ rest = '\x7b' :: (printMembers l ++ '\x7d' :: rest) := by
          simp [printJson]
        rw [hp]
        conv_lhs => unfold parseVal
        rw [skipWs_cons_of_not_ws (by decide)]
        have hsz : jsizeMembers l ≤ fuel := by
          have : jsize (.obj l) = 1 + jsizeMembers l := by simp [jsize]
          omega
        simp [ihM l rest hsz]
    · -- parseElems on a printed element list
      cases l with
      | nil =>
        conv_lhs => unfold parseElems
        simp [printElems, skipWs, isJsonWs]
      | cons j js =>
        obtain ⟨c, t, hpj, hws, hbr, _⟩ := printJson_head j
        have hp : printElems (j :: js) ++ ']' :: rest
            = c :: (t ++ (printElemsRest js ++ ']' :: rest)) := by
          simp [printElems, hpj]
        rw [hp]
        conv_lhs => unfold parseElems
        rw [skipWs_cons_of_not_ws hws]
        have hszj : jsize j ≤ fuel := by
          have : jsizeElems (j :: js) = 1 + max (jsize j) (jsizeElems js) := by
            simp [jsizeElems]
          omega
        have hval : parseVal fuel (c :: (t ++ (printElemsRest js ++ ']' :: rest)))
            = some (j, printElemsRest js ++ ']' :: rest) := by
          have : c :: (t ++ (printElemsRest js ++ ']' :: rest))
              = printJson j ++ (printElemsRest js ++ ']' :: rest) := by
            rw [hpj]; simp
          rw [this]
          exact ihV j _ hszj (numSafe_elemsRest js rest)
        simp only [if_neg hbr, hval]
        cases js with
        | nil =>
          simp only [printElemsRest, List.nil_append]
          rw [skipWs_cons_of_not_ws (by decide)]
          simp
        | cons j2 js2 =>
          simp only [printElemsRest, List.cons_append]
          rw [skipWs_cons_of_not_ws (by decide)]
          have hf : 1 ≤ fuel := by
            have h1 : jsizeElems (j :: j2 :: js2)
                = 1 + max (jsize j) (jsizeElems (j2 :: js2)) := by simp [jsizeElems]
            have h2 := jsizeElems_pos (j2 :: js2)
            omega
          obtain ⟨f, rfl⟩ : ∃ f, fuel = f + 1 := ⟨fuel - 1, by omega⟩
          have hsz2 : jsizeElems (j2 :: js2) ≤ f + 1 := by
            have h1 : jsizeElems (j :: j2 :: js2)
                = 1 + max (jsize j) (jsizeElems (j2 :: js2)) := by simp [jsizeElems]
            omega
          have hrec : parseElems (f + 1)
              (' ' :: (printJson j2 ++ (printElemsRest js2 ++ ']' :: rest)))
              = some (j2 :: js2, rest) := by
            rw [parseElems_space]
            have he : printJson j2 ++ (printElemsRest js2 ++ ']' :: rest)
                = printElems (j2 :: js2) ++ ']' :: rest := by simp [printElems]
            rw [he]
            exact ihE (j2 :: js2) rest hsz2
          simp [hrec]
    · -- parseMembers on a printed member list
      cases l with
      | nil =>
        conv_lhs => unfold parseMembers
        simp [printMembers, skipWs, isJsonWs]
      | cons p ps =>
        obtain ⟨k, v⟩ := p
        have hp : printMembers ((k, v) :: ps) ++ '\x7d' :: rest
            = '"' :: (k.data.flatMap printChar ++ '"' ::
                (':' :: ' ' :: (printJson v ++ (printMembersRest ps ++ '\x7d' :: rest)))) := by
          simp [printMembers, printString]
        rw [hp]
        conv_lhs => unfold parseMembers
        rw [skipWs_cons_of_not_ws (by decide)]
        simp only [if_neg (show ¬('"' : Char) = '\x7d' from by decide), if_pos rfl,
          parseStringBody_print]
        rw [skipWs_cons_of_not_ws (by decide)]
        have hszv : jsize v ≤ fuel := by
          have : jsizeMembers ((k, v) :: ps) = 1 + max (jsize v) (jsizeMembers ps) := by
            simp [jsizeMembers]
          omega
        have hf : 1 ≤ fuel := by have := jsize_pos v; omega
        obtain ⟨f, rfl⟩ : ∃ f, fuel = f + 1 := ⟨fuel - 1, by omega⟩
        have hval : parseVal (f + 1)
            (' ' :: (printJson v ++ (printMembersRest ps ++ '\x7d' :: rest)))
            = some (v, printMembersRest ps ++ '\x7d' :: rest) := by
          rw [parseVal_space]
          exact ihV v _ hszv (numSafe_membersRest ps rest)
        simp only [hval]
        cases ps with
        | nil =>
          simp only [printMembersRest, List.nil_append]
          rw [skipWs_cons_of_not_ws (by decide)]
          simp [stringMk_data]
        | cons p2 ps2 =>
          obtain ⟨k2, v2⟩ := p2
          simp only [printMembersRest, List.cons_append]
          rw [skipWs_cons_of_not_ws (by decide)]
          have hsz2 : jsizeMembers ((k2, v2) :: ps2) ≤ f + 1 := by
            have h1 : jsizeMembers ((k, v) :: (k2, v2) :: ps2)
                = 1 + max (jsize v) (jsizeMembers ((k2, v2) :: ps2)) := by simp [jsizeMembers]
            omega
          have hrec : parseMembers (f + 1)
              (' ' :: (printString k2 ++ ':' :: ' ' :: (printJson v2 ++ (printMembersRest ps2
                ++ '\x7d' :: rest))))
              = some ((k2, v2) :: ps2, rest) := by
            rw [parseMembers_space]
            have he : printString k2 ++ ':' :: ' ' :: (printJson v2 ++ (printMembersRest ps2
                ++ '\x7d' :: rest))
                = printMembers ((k2, v2) :: ps2) ++ '\x7d' :: rest := by simp [printMembers]
            rw [he]
            exact ihM ((k2, v2) :: ps2) rest hsz2
          simp [hrec, stringMk_data]

mutual

theorem jsize_le_print (j : Json) : jsize j ≤ (printJson j).length + 1 := by
  cases j with
  | null => simp [jsize, printJson]
  | bool b => cases b <;> simp [jsize, printJson]
  | num i => simp [jsize]
  | str s => simp [jsize]
  | arr l =>
    have h := jsizeElems_le_print l
    simp only [jsize, printJson, List.length_cons, List.length_append, List.length_singleton]
    omega
  | obj l =>
    have h := jsizeMembers_le_print l
    simp only [jsize, printJson, List.length_cons, List.length_append, List.length_singleton]
    omega

theorem jsizeElems_le_print (l : List Json) : jsizeElems l ≤ (printElems l).length + 2 := by
  cases l with
  | nil => simp [jsizeElems, printElems]
  | cons j js =>
    have h1 := jsize_le_print j
    have h2 := jsizeElemsRest_le_print js
    have h3 : 1 ≤ (printJson j).length := by
      obtain ⟨c, t, hp, _⟩ := printJson_head j
      simp [hp]
    simp only [jsizeElems, printElems, List.length_append]
    omega

theorem jsizeElemsRest_le_print (l : List Json) : jsizeElems l ≤ (printElemsRest l).length + 2 := by
  cases l with
  | nil => simp [jsizeElems, printElemsRest]
  | cons j js =>
    have h1 := jsize_le_print j
    have h2 := jsizeElemsRest_le_print js
    simp only [jsizeElems, printElemsRest, List.length_cons, List.length_append]
    omega

theorem jsizeMembers_le_print (l : List (String × Json)) :
    jsizeMembers l ≤ (printMembers l).length + 2 := by
  cases l with
  | nil => simp [jsizeMembers, printMembers]
  | cons p ps =>
    obtain ⟨k, v⟩ := p
    have h1 := jsize_le_print v
    have h2 := jsizeMembersRest_le_print ps
    simp only [jsizeMembers, printMembers, List.length_append, List.length_cons]
    omega

theorem jsizeMembersRest_le_print (l : List (String × Json)) :
    jsizeMembers l ≤ (printMembersRest l).length + 2 := by
  cases l with
  | nil => simp [jsizeMembers, printMembersRest]
  | cons p ps =>
    obtain ⟨k, v⟩ := p
    have h1 := jsize_le_print v
    have h2 := jsizeMembersRest_le_print ps
    simp only [jsizeMembers, printMembersRest, List.length_cons, List.length_append]
    omega

end

/-! ## ModelProvider credential encode/decode (`models/model_provider.py`) -/

/-- `ModelProvider.encrypt_credentials`: despite the name, plain
`json.dumps(credentials)` — a reversible encoding, no cryptography. -/
def encrypt_credentials (credentials : List (String × Json)) : String :=
  String.mk (printJson (Json.obj credentials))

/-- `ModelProvider.decrypt_credentials`: plain `json.loads` of the stored
string. -/
def decrypt_credentials (encrypted_credentials : String) : Option Json :=
  parseJson encrypted_credentials

theorem decrypt_encrypt_roundtrip (c : List (String × Json)) :
    decrypt_credentials (encrypt_credentials c) = some (Json.obj c) := by
  unfold decrypt_credentials encrypt_credentials parseJson
  have hdata : (String.mk (printJson (Json.obj c))).data = printJson (Json.obj c) := rfl
  have hlen : (String.mk (printJson (Json.obj c))).length = (printJson (Json.obj c)).length := rfl
  have hsz : jsize (Json.obj c) ≤ (String.mk (printJson (Json.obj c))).length + 2 := by
    have := jsize_le_print (Json.obj c)
    rw [hlen]
    omega
  have h := (parse_print_aux ((String.mk (printJson (Json.obj c))).length + 2)).1
    (Json.obj c) [] hsz numSafe_nil
  rw [List.append_nil] at h
  rw [hdata, h]
  simp [skipWs]

/-! ## Enumerations (`models/account.py`, `models/tenant.py`, `models/app.py`,
`models/model_provider.py`) -/

/-- `AccountStatus`. -/
inductive AccountStatus where
  | active | inactive | banned
deriving DecidableEq

/-- `TenantPlan`. -/
inductive TenantPlan where
  | free | pro | enterprise
deriving DecidableEq

/-- `TenantStatus`. -/
inductive TenantStatus where
  | active | suspended | deleted
deriving DecidableEq

/-- `TenantRole`: the three-level role hierarchy. -/
inductive TenantRole where
  | owner | admin | member
deriving DecidableEq

/-- `AppMode`. -/
inductive AppMode where
  | chat | completion | agent | workflow
deriving DecidableEq

/-- `AppStatus`. -/
inductive AppStatus where
  | normal | archived
deriving DecidableEq

/-- `ProviderType`. -/
inductive ProviderType where
  | openai | tei
deriving DecidableEq

/-- The service-layer exception taxonomy of `services/exceptions.py`; raising
an exception is returning `Except.error` carrying one of these. -/
inductive Err where
  | validation_error (message : String)
  | authentication_error (message : String)
  | authorization_error (resource : String)
  | resource_not_found_error (resource : String) (identifier : String)
  | resource_conflict_error (message : String)
  | business_logic_error (message : String)
deriving DecidableEq

/-! ## Entities (rows of the relational store), ids as naturals -/

/-- `Account` (`models/account.py`). -/
structure Account where
  id : Nat
  email : String
  password_hash : String
  name : String
  status : AccountStatus
  last_login_at : Option Nat
deriving DecidableEq

/-- `Account.is_active` property. -/
def Account.is_active (a : Account) : Bool :=
  decide (a.status = AccountStatus.active)

/-- `Tenant` (`models/tenant.py`). -/
structure Tenant where
  id : Nat
  name : String
  plan : TenantPlan
  status : TenantStatus
deriving DecidableEq

/-- `TenantAccountJoin`: the membership edge (unique per (tenant, account)). -/
structure TenantAccountJoin where
  tenant_id : Nat
  account_id : Nat
  role : TenantRole
deriving DecidableEq

/-- `App` (`models/app.py`). -/
structure App where
  id : Nat
  tenant_id : Nat
  name : String
  description : Option String
  mode : AppMode
  icon : String
  icon_background : String
  enable_site : Bool
  enable_api : Bool
  status : AppStatus
  created_by : Nat
deriving DecidableEq

/-- `ModelProvider` (`models/model_provider.py`). -/
structure ModelProvider where
  id : Nat
  tenant_id : Nat
  name : String
  provider_type : ProviderType
  encrypted_credentials : String
  is_active : Bool
  config : List (String × Json)
  quota_config : List (String × Json)
  created_by : Option Nat

/-- The relational store: one list per table, plus fresh-id counters standing
for `uuid4` freshness. -/
structure DB where
  accounts : List Account
  tenants : List Tenant
  joins : List TenantAccountJoin
  apps : List App
  providers : List ModelProvider
  next_tenant_id : Nat
  next_app_id : Nat
  next_provider_id : Nat

/-! ## Repositories (`repositories/*.py`): thin lookups and writes -/

/-- `AccountRepository.get_by_id`. -/
def get_account_by_id (s : DB) (account_id : Nat) : Option Account :=
  s.accounts.find? (fun a => a.id == account_id)

/-- `AccountRepository.get_by_email`. -/
def get_account_by_email (s : DB) (email : String) : Option Account :=
  s.accounts.find? (fun a => a.email == email)

/-- `TenantRepository.get_by_id`. -/
def get_tenant_by_id (s : DB) (tenant_id : Nat) : Option Tenant :=
  s.tenants.find? (fun t => t.id == tenant_id)

/-- `TenantRepository.get_by_name`. -/
def get_tenant_by_name (s : DB) (name : String) : Option Tenant :=
  s.tenants.find? (fun t => t.name == name)

/-- The membership row for a (tenant, account) pair, if any. -/
def get_member_join (s : DB) (tenant_id account_id : Nat) : Option TenantAccountJoin :=
  s.joins.find? (fun j => j.tenant_id == tenant_id && j.account_id == account_id)

/-- `TenantRepository.get_member_role`. -/
def get_member_role (s : DB) (tenant_id account_id : Nat) : Option TenantRole :=
  (get_member_join s tenant_id account_id).map (fun j => j.role)

/-- `TenantRepository.is_member` (an exists-query; equivalent to the role
lookup being non-empty). -/
def is_member (s : DB) (tenant_id account_id : Nat) : Bool :=
  (get_member_join s tenant_id account_id).isSome

/-- `TenantRepository.add_member`: inserts the join unless one exists. -/
def add_member_repo (s : DB) (tenant_id account_id : Nat) (role : TenantRole) : DB :=
  match get_member_join s tenant_id account_id with
  | some _ => s
  | none => { s with joins := s.joins ++ [⟨tenant_id, account_id, role⟩] }

/-- `TenantRepository.remove_member`: deletes the join row. -/
def remove_member_repo (s : DB) (tenant_id account_id : Nat) : DB :=
  { s with joins :=
      s.joins.filter (fun j => !(j.tenant_id == tenant_id && j.account_id == account_id)) }

/-- `TenantRepository.update_member_role`: sets the role on the join row
(the (tenant, account) pair is unique, so at most one row changes). -/
def update_member_role_repo (s : DB) (tenant_id account_id : Nat) (role : TenantRole) : DB :=
  { s with joins :=
      s.joins.map (fun j =>
        if j.tenant_id == tenant_id && j.account_id == account_id then
          { j with role := role }
        else j) }

/-- `AppRepository.get_by_id`. -/
def get_app_by_id (s : DB) (app_id : Nat) : Option App :=
  s.apps.find? (fun a => a.id == app_id)

/-- `AppRepository.get_by_tenant`. -/
def get_apps_by_tenant (s : DB) (tenant_id : Nat) : List App :=
  s.apps.filter (fun a => a.tenant_id == tenant_id)

/-- `AppRepository.get_active_apps_by_tenant`: the tenant's apps whose status
is `normal`. -/
def get_active_apps_by_tenant (s : DB) (tenant_id : Nat) : List App :=
  s.apps.filter (fun a => a.tenant_id == tenant_id && decide (a.status = AppStatus.normal))

/-- `BaseRepository.update` on the apps table: mutate the row with the given
primary key (ids are unique). -/
def app_update (s : DB) (app_id : Nat) (f : App → App) : DB :=
  { s with apps := s.apps.map (fun a => if a.id == app_id then f a else a) }

/-- `ModelProviderRepository.get_active_by_tenant_and_name`. -/
def get_active_by_tenant_and_name (s : DB) (tenant_id : Nat) (name : String) :
    Option ModelProvider :=
  s.providers.find? (fun p => p.tenant_id == tenant_id && p.name == name && p.is_active)

/-- `ModelProviderRepository.get_by_tenant_and_id`. -/
def get_by_tenant_and_id (s : DB) (tenant_id provider_id : Nat) : Option ModelProvider :=
  s.providers.find? (fun p => p.tenant_id == tenant_id && p.id == provider_id)

/-- `BaseRepository.update` on the providers table. -/
def provider_update (s : DB) (provider_id : Nat) (f : ModelProvider → ModelProvider) : DB :=
  { s with providers := s.providers.map (fun p => if p.id == provider_id then f p else p) }

/-! ## JWT collaborator (`pyjwt`, used by `services/auth_service.py`) -/

/-- The claims `AuthService` puts in a token.  `account_id` is the claim
`payload.get("account_id")`; a token without the claim (or with a falsy one)
is modelled as `none`. -/
structure JwtPayload where
  account_id : Option Nat
  email : String
  exp : Nat
  iat : Nat
deriving DecidableEq

/-- A signed token: the claims together with the key they were signed with.
`jwt.decode` recovers the claims exactly when the keys agree. -/
structure JwtToken where
  payload : JwtPayload
  key : String
deriving DecidableEq

/-- The two signals `pyjwt` raises that `verify_token` distinguishes. -/
inductive JwtError where
  | expired_signature | invalid_token
deriving DecidableEq

/-- `jwt.encode(payload, secret_key, algorithm="HS256")`. -/
def jwt_encode (payload : JwtPayload) (key : String) : JwtToken :=
  ⟨payload, key⟩

/-- `jwt.decode(token, secret_key, algorithms=["HS256"])` at time `now`:
signature check first, then the `exp` claim. -/
def jwt_decode (token : JwtToken) (key : String) (now : Nat) : Except JwtError JwtPayload :=
  if token.key ≠ key then .error .invalid_token
  else if token.payload.exp ≤ now then .error .expired_signature
  else .ok token.payload

/-! ## AuthService (`services/auth_service.py`) -/

/-- `AuthService._generate_token`: claims `{account_id, email, exp, iat}` with
`exp = now + token_expiry_hours hours`. -/
def generate_token (secret_key : String) (token_expiry_hours : Nat)
    (account_id : Nat) (email : String) (now : Nat) : JwtToken :=
  jwt_encode
    { account_id := some account_id
      email := email
      exp := now + token_expiry_hours * 3600
      iat := now }
    secret_key

/-- `AuthService.login`.  `check_password_hash` is the `werkzeug` collaborator
(hash first, candidate password second). -/
def login (check_password_hash : String → String → Bool) (secret_key : String)
    (token_expiry_hours : Nat) (s : DB) (email password : String) (now : Nat) :
    Except Err (Account × JwtToken) × DB :=
  match get_account_by_email s email with
  | none => (.error (.authentication_error "Invalid email or password"), s)
  | some account =>
    if account.status = .banned then
      (.error (.authentication_error "Account has been banned"), s)
    else if account.status = .inactive then
      (.error (.authentication_error "Account is inactive"), s)
    else if !check_password_hash account.password_hash password then
      (.error (.authentication_error "Invalid email or password"), s)
    else
      let s1 := { s with accounts := s.accounts.map (fun a =>
        if a.id == account.id then { a with last_login_at := some now } else a) }
      (.ok (account, generate_token secret_key token_expiry_hours account.id account.email now),
        s1)

/-- `AuthService.verify_token`. -/
def verify_token (s : DB) (secret_key : String) (token : JwtToken) (now : Nat) :
    Except Err Account :=
  match jwt_decode token secret_key now with
  | .error .expired_signature => .error (.authentication_error "Token has expired")
  | .error .invalid_token => .error (.authentication_error "Invalid token")
  | .ok payload =>
    match payload.account_id with
    | none => .error (.authentication_error "Invalid token")
    | some account_id =>
      match get_account_by_id s account_id with
      | none => .error (.authentication_error "Account not found")
      | some account =>
        if account.is_active then .ok account
        else .error (.authentication_error "Account is not active")

/-- Python `str.strip()`: drop leading and trailing whitespace. -/
def py_strip (s : String) : String :=
  String.mk (((s.data.dropWhile Char.isWhitespace).reverse.dropWhile Char.isWhitespace).reverse)

/-! ## TenantService (`services/tenant_service.py`) -/

/-- `TenantService.create_tenant`: validate the name, require the owner
account and a globally fresh name, create the tenant, then immediately add
the creator as `owner`. -/
def create_tenant (s : DB) (name : String) (owner_account_id : Nat)
    (plan : TenantPlan) : Except Err Tenant × DB :=
  if (py_strip name) = "" then
    (.error (.validation_error "Tenant name is required"), s)
  else if (py_strip name).length > 100 then
    (.error (.validation_error "Tenant name is too long (max 100 characters)"), s)
  else
    match get_account_by_id s owner_account_id with
    | none => (.error (.resource_not_found_error "Account" (toString owner_account_id)), s)
    | some _ =>
      match get_tenant_by_name s (py_strip name) with
      | some _ => (.error (.resource_conflict_error ("Tenant name already exists: " ++ name)), s)
      | none =>
        let tenant : Tenant :=
          { id := s.next_tenant_id, name := (py_strip name), plan := plan, status := .active }
        let s1 := { s with tenants := s.tenants ++ [tenant],
                           next_tenant_id := s.next_tenant_id + 1 }
        let s2 := add_member_repo s1 tenant.id owner_account_id .owner
        (.ok tenant, s2)

/-- `TenantService.add_member`. -/
def add_member (s : DB) (tenant_id account_id : Nat) (role : TenantRole)
    (operator_account_id : Nat) : Except Err Unit × DB :=
  match get_tenant_by_id s tenant_id with
  | none => (.error (.resource_not_found_error "Tenant" (toString tenant_id)), s)
  | some _ =>
    match get_account_by_id s account_id with
    | none => (.error (.resource_not_found_error "Account" (toString account_id)), s)
    | some _ =>
      match get_member_role s tenant_id operator_account_id with
      | none => (.error (.authorization_error "Only owner or admin can add members"), s)
      | some operator_role =>
        if operator_role ≠ .owner ∧ operator_role ≠ .admin then
          (.error (.authorization_error "Only owner or admin can add members"), s)
        else if is_member s tenant_id account_id then
          (.error (.resource_conflict_error "Account is already a member of this tenant"), s)
        else
          (.ok (), add_member_repo s tenant_id account_id role)

/-- `TenantService.remove_member`. -/
def remove_member (s : DB) (tenant_id account_id : Nat)
    (operator_account_id : Nat) : Except Err Unit × DB :=
  match get_tenant_by_id s tenant_id with
  | none => (.error (.resource_not_found_error "Tenant" (toString tenant_id)), s)
  | some _ =>
    match get_member_role s tenant_id operator_account_id with
    | none => (.error (.authorization_error "Only owner or admin can remove members"), s)
    | some operator_role =>
      if operator_role ≠ .owner ∧ operator_role ≠ .admin then
        (.error (.authorization_error "Only owner or admin can remove members"), s)
      else
        match get_member_role s tenant_id account_id with
        | none => (.error (.resource_not_found_error "Member" (toString account_id)), s)
        | some member_role =>
          if member_role = .owner then
            (.error (.business_logic_error "Cannot remove tenant owner"), s)
          else if operator_role = .admin ∧ member_role = .admin then
            (.error (.authorization_error "Admin cannot remove another admin"), s)
          else
            (.ok (), remove_member_repo s tenant_id account_id)

/-- `TenantService.update_member_role`. -/
def update_member_role (s : DB) (tenant_id account_id : Nat) (new_role : TenantRole)
    (operator_account_id : Nat) : Except Err Unit × DB :=
  match get_tenant_by_id s tenant_id with
  | none => (.error (.resource_not_found_error "Tenant" (toString tenant_id)), s)
  | some _ =>
    if get_member_role s tenant_id operator_account_id ≠ some .owner then
      (.error (.authorization_error "Only owner can update member roles"), s)
    else
      match get_member_role s tenant_id account_id with
      | none => (.error (.resource_not_found_error "Member" (toString account_id)), s)
      | some member_role =>
        if member_role = .owner then
          (.error (.business_logic_error "Cannot change owner role"), s)
        else if new_role = .owner then
          (.error (.business_logic_error "Cannot set member to owner role"), s)
        else
          (.ok (), update_member_role_repo s tenant_id account_id new_role)

/-- `TenantService.check_permission`: owner has every permission, admin has
admin and member, member has member; no membership, no permission. -/
def check_permission (s : DB) (tenant_id account_id : Nat)
    (required_role : TenantRole) : Bool :=
  match get_member_role s tenant_id account_id with
  | none => false
  | some .owner => true
  | some .admin => decide (required_role = .admin) || decide (required_role = .member)
  | some .member => decide (required_role = .member)

/-- `TenantService.update_tenant` (fields a controller can pass: name, plan,
status). -/
def update_tenant (s : DB) (tenant_id operator_account_id : Nat)
    (name : Option String) (plan : Option TenantPlan) (status : Option TenantStatus) :
    Except Err Tenant × DB :=
  match get_tenant_by_id s tenant_id with
  | none => (.error (.resource_not_found_error "Tenant" (toString tenant_id)), s)
  | some tenant =>
    if get_member_role s tenant_id operator_account_id ≠ some .owner then
      (.error (.authorization_error "Only owner can update tenant"), s)
    else
      let f : Tenant → Tenant := fun t =>
        { t with name := name.getD t.name, plan := plan.getD t.plan,
                 status := status.getD t.status }
      (.ok (f tenant),
        { s with tenants := s.tenants.map (fun t => if t.id == tenant_id then f t else t) })

/-! ## AppService (`services/app_service.py`) -/

/-- `AppService.create_app`: name checks, tenant must exist, caller must be
any member; defaults icon, background, both enable flags, status `normal`. -/
def create_app (s : DB) (tenant_id account_id : Nat) (name : String) (mode : AppMode)
    (description : Option String) (icon : Option String) (icon_background : Option String) :
    Except Err App × DB :=
  if (py_strip name) = "" then
    (.error (.validation_error "App name is required"), s)
  else if (py_strip name).length > 100 then
    (.error (.validation_error "App name is too long (max 100 characters)"), s)
  else
    match get_tenant_by_id s tenant_id with
    | none => (.error (.resource_not_found_error "Tenant" (toString tenant_id)), s)
    | some _ =>
      if !is_member s tenant_id account_id then
        (.error (.authorization_error "Not a member of this tenant"), s)
      else
        let app : App :=
          { id := s.next_app_id
            tenant_id := tenant_id
            name := (py_strip name)
            description := description
            mode := mode
            icon := icon.getD "🤖"
            icon_background := icon_background.getD "#E0F2FE"
            enable_site := true
            enable_api := true
            status := .normal
            created_by := account_id }
        (.ok app, { s with apps := s.apps ++ [app], next_app_id := s.next_app_id + 1 })

/-- `AppService.delete_app`: the one App operation demanding owner or admin. -/
def delete_app (s : DB) (app_id account_id : Nat) : Except Err Unit × DB :=
  match get_app_by_id s app_id with
  | none => (.error (.resource_not_found_error "App" (toString app_id)), s)
  | some app =>
    match get_member_role s app.tenant_id account_id with
    | some .owner => (.ok (), { s with apps := s.apps.filter (fun a => !(a.id == app_id)) })
    | some .admin => (.ok (), { s with apps := s.apps.filter (fun a => !(a.id == app_id)) })
    | _ => (.error (.authorization_error "Only admin or owner can delete apps"), s)

/-- `AppService.archive_app`: member-gated status flip to `archived`. -/
def archive_app (s : DB) (app_id account_id : Nat) : Except Err App × DB :=
  match get_app_by_id s app_id with
  | none => (.error (.resource_not_found_error "App" (toString app_id)), s)
  | some app =>
    if !is_member s app.tenant_id account_id then
      (.error (.authorization_error "Not a member of this tenant"), s)
    else
      (.ok { app with status := .archived },
        app_update s app_id (fun a => { a with status := .archived }))

/-- `AppService.unarchive_app`: member-gated status flip back to `normal`. -/
def unarchive_app (s : DB) (app_id account_id : Nat) : Except Err App × DB :=
  match get_app_by_id s app_id with
  | none => (.error (.resource_not_found_error "App" (toString app_id)), s)
  | some app =>
    if !is_member s app.tenant_id account_id then
      (.error (.authorization_error "Not a member of this tenant"), s)
    else
      (.ok { app with status := .normal },
        app_update s app_id (fun a => { a with status := .normal }))

/-- `AppService.toggle_site`. -/
def toggle_site (s : DB) (app_id account_id : Nat) (enable : Bool) : Except Err App × DB :=
  match get_app_by_id s app_id with
  | none => (.error (.resource_not_found_error "App" (toString app_id)), s)
  | some app =>
    if !is_member s app.tenant_id account_id then
      (.error (.authorization_error "Not a member of this tenant"), s)
    else
      (.ok { app with enable_site := enable },
        app_update s app_id (fun a => { a with enable_site := enable }))

/-- `AppService.toggle_api`. -/
def toggle_api (s : DB) (app_id account_id : Nat) (enable : Bool) : Except Err App × DB :=
  match get_app_by_id s app_id with
  | none => (.error (.resource_not_found_error "App" (toString app_id)), s)
  | some app =>
    if !is_member s app.tenant_id account_id then
      (.error (.authorization_error "Not a member of this tenant"), s)
    else
      (.ok { app with enable_api := enable },
        app_update s app_id (fun a => { a with enable_api := enable }))

/-- `AppService.get_tenant_apps`: membership-gated listing, all apps or only
the `normal` ones. -/
def get_tenant_apps (s : DB) (tenant_id account_id : Nat) (include_archived : Bool) :
    Except Err (List App) :=
  match get_tenant_by_id s tenant_id with
  | none => .error (.resource_not_found_error "Tenant" (toString tenant_id))
  | some _ =>
    if !is_member s tenant_id account_id then
      .error (.authorization_error "Not a member of this tenant")
    else if include_archived then .ok (get_apps_by_tenant s tenant_id)
    else .ok (get_active_apps_by_tenant s tenant_id)

/-! ## ModelProviderService (`services/model_provider_service.py`) -/

/-- `ModelProviderService.add_provider`.  `validate` is the oracle standing
for `_validate_credentials` (factory lookup plus the adapter's live
`validate_credentials` HTTP call): `.error msg` models it raising an
exception whose `str` is `msg`. -/
def add_provider (validate : ProviderType → List (String × Json) → Except String Bool)
    (s : DB) (tenant_id : Nat) (name : String) (provider_type : ProviderType)
    (credentials : List (String × Json)) (config : List (String × Json))
    (quota_config : List (String × Json)) (created_by : Option Nat) :
    Except Err ModelProvider × DB :=
  match get_tenant_by_id s tenant_id with
  | none => (.error (.resource_not_found_error "Tenant" (toString tenant_id)), s)
  | some _ =>
    if (py_strip name) = "" then
      (.error (.validation_error "Provider name is required"), s)
    else if name.length > 100 then
      (.error (.validation_error "Provider name is too long (max 100 characters)"), s)
    else
      match get_active_by_tenant_and_name s tenant_id name with
      | some _ =>
        (.error (.resource_conflict_error
          ("Provider with name '" ++ name ++ "' already exists")), s)
      | none =>
        if credentials.isEmpty then
          (.error (.validation_error "Credentials are required"), s)
        else
          match validate provider_type credentials with
          | .error e => (.error (.business_logic_error ("Invalid credentials: " ++ e)), s)
          | .ok _ =>
            let provider : ModelProvider :=
              { id := s.next_provider_id
                tenant_id := tenant_id
                name := name
                provider_type := provider_type
                encrypted_credentials := encrypt_credentials credentials
                is_active := true
                config := config
                quota_config := quota_config
                created_by := created_by }
            (.ok provider,
              { s with providers := s.providers ++ [provider],
                       next_provider_id := s.next_provider_id + 1 })

/-- `ModelProviderService.activate_provider`. -/
def activate_provider (s : DB) (tenant_id provider_id : Nat) :
    Except Err ModelProvider × DB :=
  match get_by_tenant_and_id s tenant_id provider_id with
  | none => (.error (.resource_not_found_error "Provider" (toString provider_id)), s)
  | some provider =>
    if provider.is_active then
      (.error (.business_logic_error "Provider is already active"), s)
    else
      (.ok { provider with is_active := true },
        provider_update s provider_id (fun p => { p with is_active := true }))

/-- `ModelProviderService.deactivate_provider`. -/
def deactivate_provider (s : DB) (tenant_id provider_id : Nat) :
    Except Err ModelProvider × DB :=
  match get_by_tenant_and_id s tenant_id provider_id with
  | none => (.error (.resource_not_found_error "Provider" (toString provider_id)), s)
  | some provider =>
    if !provider.is_active then
      (.error (.business_logic_error "Provider is already inactive"), s)
    else
      (.ok { provider with is_active := false },
        provider_update s provider_id (fun p => { p with is_active := false }))

/-- `ModelProviderService.delete_provider`. -/
def delete_provider (s : DB) (tenant_id provider_id : Nat) : Except Err Bool × DB :=
  match get_by_tenant_and_id s tenant_id provider_id with
  | none => (.error (.resource_not_found_error "Provider" (toString provider_id)), s)
  | some _ =>
    (.ok true, { s with providers := s.providers.filter (fun p => !(p.id == provider_id)) })

/-! ## OpenAI-compatible SSE stream parsing
(`core/model_runtime/providers/openai_provider.py`, `stream_invoke`) -/

/-- `LLMResultChunk` as `stream_invoke` fills it: the fields are whatever the
decoded JSON held (Python does not check their types at runtime). -/
structure LLMResultChunk where
  model : Json
  delta : Json
  finish_reason : Json
  index : Json

/-- The uncaught Python exception kinds the per-line block can raise (only
`json.JSONDecodeError` is caught in the source). -/
inductive StreamErr where
  | key_error | index_error | type_error | attribute_error
deriving DecidableEq

/-- The body of `stream_invoke`'s per-line `try` block after a successful
`json.loads`: `choice = data["choices"][0]`, `delta = choice.get("delta", {})`,
`content = delta.get("content", "")`, and on truthy content a chunk built from
`data["model"]`, `choice.get("finish_reason")` and `choice.get("index", 0)`.
Each way Python would raise an uncaught exception is an `.error`. -/
def process_stream_data (data : Json) : Except StreamErr (Option LLMResultChunk) :=
  match data with
  | .obj fields =>
    match jlookup fields "choices" with
    | none => .error .key_error
    | some (.arr []) => .error .index_error
    | some (.arr (choice :: _)) =>
      match choice with
      | .obj cf =>
        match (jlookup cf "delta").getD (.obj []) with
        | .obj df =>
          let content := (jlookup df "content").getD (.str "")
          if content.truthy then
            match jlookup fields "model" with
            | none => .error .key_error
            | some m =>
              .ok (some
                { model := m
                  delta := content
                  finish_reason := (jlookup cf "finish_reason").getD .null
                  index := (jlookup cf "index").getD (.num 0) })
          else .ok none
        | _ => .error .attribute_error
      | _ => .error .attribute_error
    | some (.str st) => .error (if st = "" then .index_error else .attribute_error)
    | some (.obj _) => .error .key_error
    | some _ => .error .type_error
  | _ => .error .type_error

/-- Python's `str.startswith`, by characters. -/
def py_startswith (line pre : String) : Bool :=
  pre.data.isPrefixOf line.data

/-- The SSE line loop of `stream_invoke`: skip empty lines, strip a leading
`"data: "`, stop at `"[DONE]"`, skip lines `json.loads` rejects, then run the
per-line block; an uncaught exception aborts the stream.  `loads` is the
JSON-parse collaborator (instantiate with `parseJson`); the result pairs the
yielded chunks with the aborting exception, if any. -/
def stream_invoke_lines (loads : String → Option Json) :
    List String → List LLMResultChunk × Option StreamErr
  | [] => ([], none)
  | line :: rest =>
    if line = "" then stream_invoke_lines loads rest
    else
      let l := if py_startswith line "data: " then line.drop 6 else line
      if l = "[DONE]" then ([], none)
      else
        match loads l with
        | none => stream_invoke_lines loads rest
        | some data =>
          match process_stream_data data with
          | .error e => ([], some e)
          | .ok none => stream_invoke_lines loads rest
          | .ok (some c) =>
            let r := stream_invoke_lines loads rest
            (c :: r.1, r.2)

/-- Stated from the spec's words: strip the `data: ` prefix from a line. -/
def strip_data (line : String) : String :=
  if py_startswith line "data: " then line.drop 6 else line

/-- Stated from the spec's words: the lines the parser actually considers —
empty lines dropped, prefixes stripped, everything from the first `[DONE]`
on discarded. -/
def effective_lines (lines : List String) : List String :=
  ((lines.filter (fun l => l ≠ "")).map strip_data).takeWhile (fun l => l ≠ "[DONE]")

/-- Stated from the spec's words: the chunk a well-formed decoded line
yields — exactly one when its `delta.content` is non-empty (truthy), carrying
the content, model, finish_reason and index; none otherwise. -/
def spec_chunk (data : Json) : Option LLMResultChunk :=
  match data with
  | .obj fields =>
    match jlookup fields "choices" with
    | some (.arr (.obj cf :: _)) =>
      match (jlookup cf "delta").getD (.obj []) with
      | .obj df =>
        let content := (jlookup df "content").getD (.str "")
        if content.truthy then
          match jlookup fields "model" with
          | some m =>
            some
              { model := m
                delta := content
                finish_reason := (jlookup cf "finish_reason").getD .null
                index := (jlookup cf "index").getD (.num 0) }
          | none => none
        else none
      | _ => none
    | _ => none
  | _ => none

/-- A decoded line on which the per-line block raises nothing. -/
def StreamWellFormed (data : Json) : Prop :=
  ∃ r, process_stream_data data = .ok r

/-! ## The service-call step relation (any sequence of service calls) -/

/-- One service call against the store (mutating methods of the four
services; a failed call leaves the store unchanged, which the relation covers
too since every method returns the resulting store). -/
inductive Step : DB → DB → Prop where
  | create_tenant (s : DB) (name : String) (owner_account_id : Nat) (plan : TenantPlan) :
      Step s (create_tenant s name owner_account_id plan).2
  | add_member (s : DB) (tenant_id account_id : Nat) (role : TenantRole)
      (operator_account_id : Nat) :
      Step s (add_member s tenant_id account_id role operator_account_id).2
  | remove_member (s : DB) (tenant_id account_id operator_account_id : Nat) :
      Step s (remove_member s tenant_id account_id operator_account_id).2
  | update_member_role (s : DB) (tenant_id account_id : Nat) (new_role : TenantRole)
      (operator_account_id : Nat) :
      Step s (update_member_role s tenant_id account_id new_role operator_account_id).2
  | update_tenant (s : DB) (tenant_id operator_account_id : Nat) (name : Option String)
      (plan : Option TenantPlan) (status : Option TenantStatus) :
      Step s (update_tenant s tenant_id operator_account_id name plan status).2
  | create_app (s : DB) (tenant_id account_id : Nat) (name : String) (mode : AppMode)
      (description icon icon_background : Option String) :
      Step s (create_app s tenant_id account_id name mode description icon icon_background).2
  | delete_app (s : DB) (app_id account_id : Nat) :
      Step s (delete_app s app_id account_id).2
  | archive_app (s : DB) (app_id account_id : Nat) :
      Step s (archive_app s app_id account_id).2
  | unarchive_app (s : DB) (app_id account_id : Nat) :
      Step s (unarchive_app s app_id account_id).2
  | toggle_site (s : DB) (app_id account_id : Nat) (enable : Bool) :
      Step s (toggle_site s app_id account_id enable).2
  | toggle_api (s : DB) (app_id account_id : Nat) (enable : Bool) :
      Step s (toggle_api s app_id account_id enable).2
  | add_provider (validate : ProviderType → List (String × Json) → Except String Bool)
      (s : DB) (tenant_id : Nat) (name : String) (provider_type : ProviderType)
      (credentials config quota_config : List (String × Json)) (created_by : Option Nat) :
      Step s (add_provider validate s tenant_id name provider_type credentials config
        quota_config created_by).2
  | activate_provider (s : DB) (tenant_id provider_id : Nat) :
      Step s (activate_provider s tenant_id provider_id).2
  | deactivate_provider (s : DB) (tenant_id provider_id : Nat) :
      Step s (deactivate_provider s tenant_id provider_id).2
  | delete_provider (s : DB) (tenant_id provider_id : Nat) :
      Step s (delete_provider s tenant_id provider_id).2
  | login (check_password_hash : String → String → Bool) (secret_key : String)
      (token_expiry_hours : Nat) (s : DB) (email password : String) (now : Nat) :
      Step s (login check_password_hash secret_key token_expiry_hours s email password now).2

/-- Any finite sequence of service calls. -/
def Steps : DB → DB → Prop :=
  Relation.ReflTransGen Step

/-! ## Preservation helpers: the owner membership survives every write -/

theorem find?_filter_of_imp {α : Type} {l : List α} {p q : α → Bool}
    (h : ∀ a, p a = true → q a = true) :
    (l.filter q).find? p = l.find? p := by
  induction l with
  | nil => rfl
  | cons a t ih =>
    by_cases hq : q a = true
    · rw [List.filter_cons_of_pos hq]
      by_cases hp : p a = true
      · rw [List.find?_cons_of_pos _ hp, List.find?_cons_of_pos _ hp]
      · rw [List.find?_cons_of_neg _ hp, List.find?_cons_of_neg _ hp, ih]
    · have hp : ¬ p a = true := fun hpa => hq (h a hpa)
      rw [List.filter_cons_of_neg (by simpa using hq), List.find?_cons_of_neg _ hp, ih]

theorem get_member_role_congr {s s' : DB} (h : s'.joins = s.joins) (tid aid : Nat) :
    get_member_role s' tid aid = get_member_role s tid aid := by
  simp [get_member_role, get_member_join, h]

theorem get_member_role_append {s : DB} {tid aid : Nat} {r : TenantRole}
    (h : get_member_role s tid aid = some r) (j : TenantAccountJoin) :
    get_member_role { s with joins := s.joins ++ [j] } tid aid = some r := by
  simp only [get_member_role, get_member_join] at h ⊢
  obtain ⟨jn, hfind, hrole⟩ := Option.map_eq_some'.mp h
  rw [List.find?_append, hfind]
  simp [hrole]

theorem add_member_repo_keeps_role {s : DB} {tid aid : Nat} {r : TenantRole}
    (h : get_member_role s tid aid = some r) (tid2 aid2 : Nat) (role : TenantRole) :
    get_member_role (add_member_repo s tid2 aid2 role) tid aid = some r := by
  unfold add_member_repo
  split
  · exact h
  · exact get_member_role_append h _

theorem remove_member_repo_keeps_role {s : DB} {tid aid tid2 aid2 : Nat} {r : TenantRole}
    (h : get_member_role s tid aid = some r)
    (hpair : ¬(tid = tid2 ∧ aid = aid2)) :
    get_member_role (remove_member_repo s tid2 aid2) tid aid = some r := by
  simp only [get_member_role, get_member_join, remove_member_repo] at h ⊢
  rw [find?_filter_of_imp]
  · exact h
  · intro j hj
    simp only [Bool.and_eq_true, beq_iff_eq] at hj
    simp only [Bool.not_eq_eq_eq_not, Bool.not_true, Bool.and_eq_false_iff]
    by_cases h1 : j.tenant_id = tid2
    · right
      simp only [beq_eq_false_iff_ne, ne_eq]
      intro h2
      exact hpair ⟨hj.1 ▸ h1, hj.2 ▸ h2⟩
    · left
      simp [h1]

theorem update_member_role_repo_keeps_role {s : DB} {tid aid tid2 aid2 : Nat}
    {r : TenantRole} (h : get_member_role s tid aid = some r)
    (hpair : ¬(tid = tid2 ∧ aid = aid2)) (nrole : TenantRole) :
    get_member_role (update_member_role_repo s tid2 aid2 nrole) tid aid = some r := by
  simp only [get_member_role, get_member_join, update_member_role_repo] at h ⊢
  obtain ⟨jn, hfind, hrole⟩ := Option.map_eq_some'.mp h
  have hp := List.find?_some hfind
  simp only [Bool.and_eq_true, beq_iff_eq] at hp
  have hpf : (fun j : TenantAccountJoin =>
      (if j.tenant_id == tid2 && j.account_id == aid2 then { j with role := nrole } else j))
      = fun j => if j.tenant_id == tid2 && j.account_id == aid2
          then { j with role := nrole } else j := rfl
  rw [List.find?_map]
  have hcong : ∀ j : TenantAccountJoin,
      ((fun j : TenantAccountJoin => j.tenant_id == tid && j.account_id == aid) ∘
        (fun j => if j.tenant_id == tid2 && j.account_id == aid2
          then { j with role := nrole } else j)) j
      = (j.tenant_id == tid && j.account_id == aid) := by
    intro j
    simp only [Function.comp]
    split
    · rfl
    · rfl
  rw [funext hcong, hfind]
  have hnj : ¬(jn.tenant_id = tid2 ∧ jn.account_id = aid2) := by
    intro hc
    exact hpair ⟨hp.1 ▸ hc.1, hp.2 ▸ hc.2⟩
  simp [hnj, hrole]

theorem update_tenant_joins (s : DB) (tid op : Nat) (n : Option String)
    (p : Option TenantPlan) (st : Option TenantStatus) :
    (update_tenant s tid op n p st).2.joins = s.joins := by
  unfold update_tenant
  repeat' split
  all_goals rfl

theorem create_app_joins (s : DB) (tid aid : Nat) (name : String) (mode : AppMode)
    (d i ib : Option String) :
    (create_app s tid aid name mode d i ib).2.joins = s.joins := by
  unfold create_app
  repeat' split
  all_goals rfl

theorem delete_app_joins (s : DB) (app_id aid : Nat) :
    (delete_app s app_id aid).2.joins = s.joins := by
  unfold delete_app
  repeat' split
  all_goals rfl

theorem archive_app_joins (s : DB) (app_id aid : Nat) :
    (archive_app s app_id aid).2.joins = s.joins := by
  unfold archive_app
  repeat' split
  all_goals rfl

theorem unarchive_app_joins (s : DB) (app_id aid : Nat) :
    (unarchive_app s app_id aid).2.joins = s.joins := by
  unfold unarchive_app
  repeat' split
  all_goals rfl

theorem toggle_site_joins (s : DB) (app_id aid : Nat) (enable : Bool) :
    (toggle_site s app_id aid enable).2.joins = s.joins := by
  unfold toggle_site
  repeat' split
  all_goals rfl

theorem toggle_api_joins (s : DB) (app_id aid : Nat) (enable : Bool) :
    (toggle_api s app_id aid enable).2.joins = s.joins := by
  unfold toggle_api
  repeat' split
  all_goals rfl

theorem add_provider_joins (validate : ProviderType → List (String × Json) → Except String Bool)
    (s : DB) (tid : Nat) (name : String) (pt : ProviderType)
    (cr cf qc : List (String × Json)) (cb : Option Nat) :
    (add_provider validate s tid name pt cr cf qc cb).2.joins = s.joins := by
  unfold add_provider
  repeat' split
  all_goals rfl

theorem activate_provider_joins (s : DB) (tid pid : Nat) :
    (activate_provider s tid pid).2.joins = s.joins := by
  unfold activate_provider
  repeat' split
  all_goals rfl

theorem deactivate_provider_joins (s : DB) (tid pid : Nat) :
    (deactivate_provider s tid pid).2.joins = s.joins := by
  unfold deactivate_provider
  repeat' split
  all_goals rfl

theorem delete_provider_joins (s : DB) (tid pid : Nat) :
    (delete_provider s tid pid).2.joins = s.joins := by
  unfold delete_provider
  repeat' split
  all_goals rfl

theorem login_joins (chk : String → String → Bool) (key : String) (hours : Nat)
    (s : DB) (email password : String) (now : Nat) :
    (login chk key hours s email password now).2.joins = s.joins := by
  unfold login
  repeat' split
  all_goals rfl

theorem owner_role_step {s s' : DB} (hst : Step s s') (tid aid : Nat)
    (h : get_member_role s tid aid = some TenantRole.owner) :
    get_member_role s' tid aid = some TenantRole.owner := by
  cases hst with
  | create_tenant s name oid plan =>
    unfold create_tenant
    repeat' split
    all_goals first
      | exact h
      | (dsimp only
         refine add_member_repo_keeps_role ?_ _ _ _
         exact h)
  | add_member s tid2 aid2 role oid =>
    unfold add_member
    repeat' split
    all_goals first
      | exact h
      | (dsimp only
         refine add_member_repo_keeps_role ?_ _ _ _
         exact h)
  | remove_member s tid2 aid2 oid =>
    unfold remove_member
    repeat' split
    all_goals first
      | exact h
      | (refine remove_member_repo_keeps_role h ?_
         rintro ⟨rfl, rfl⟩
         simp_all)
  | update_member_role s tid2 aid2 nrole oid =>
    unfold update_member_role
    repeat' split
    all_goals first
      | exact h
      | (refine update_member_role_repo_keeps_role h ?_ nrole
         rintro ⟨rfl, rfl⟩
         simp_all)
  | update_tenant s tid2 oid n p st =>
    rw [get_member_role_congr (update_tenant_joins s tid2 oid n p st) tid aid]
    exact h
  | create_app s tid2 aid2 name mode d i ib =>
    rw [get_member_role_congr (create_app_joins s tid2 aid2 name mode d i ib) tid aid]
    exact h
  | delete_app s app_id aid2 =>
    rw [get_member_role_congr (delete_app_joins s app_id aid2) tid aid]
    exact h
  | archive_app s app_id aid2 =>
    rw [get_member_role_congr (archive_app_joins s app_id aid2) tid aid]
    exact h
  | unarchive_app s app_id aid2 =>
    rw [get_member_role_congr (unarchive_app_joins s app_id aid2) tid aid]
    exact h
  | toggle_site s app_id aid2 enable =>
    rw [get_member_role_congr (toggle_site_joins s app_id aid2 enable) tid aid]
    exact h
  | toggle_api s app_id aid2 enable =>
    rw [get_member_role_congr (toggle_api_joins s app_id aid2 enable) tid aid]
    exact h
  | add_provider validate s tid2 name pt cr cf qc cb =>
    rw [get_member_role_congr (add_provider_joins validate s tid2 name pt cr cf qc cb) tid aid]
    exact h
  | activate_provider s tid2 pid =>
    rw [get_member_role_congr (activate_provider_joins s tid2 pid) tid aid]
    exact h
  | deactivate_provider s tid2 pid =>
    rw [get_member_role_congr (deactivate_provider_joins s tid2 pid) tid aid]
    exact h
  | delete_provider s tid2 pid =>
    rw [get_member_role_congr (delete_provider_joins s tid2 pid) tid aid]
    exact h
  | login chk key hours s email password now =>
    rw [get_member_role_congr (login_joins chk key hours s email password now) tid aid]
    exact h

theorem owner_role_steps {s s' : DB} (hst : Steps s s') (tid aid : Nat)
    (h : get_member_role s tid aid = some TenantRole.owner) :
    get_member_role s' tid aid = some TenantRole.owner := by
  induction hst with
  | refl => exact h
  | tail _ hstep ih => exact owner_role_step hstep tid aid ih

/-! ## Store well-formedness: counters dominate ids (uuid freshness) -/

/-- Every tenant id is below the tenant counter and every membership edge
points at an existing tenant; this is what `uuid4` freshness gives the real
store. -/
def WfDB (s : DB) : Prop :=
  (∀ t ∈ s.tenants, t.id < s.next_tenant_id) ∧
  (∀ j ∈ s.joins, ∃ t ∈ s.tenants, t.id = j.tenant_id)

theorem tenant_frame_create_app (s : DB) (tid aid : Nat) (name : String) (mode : AppMode)
    (d i ib : Option String) :
    (create_app s tid aid name mode d i ib).2.tenants = s.tenants ∧
    (create_app s tid aid name mode d i ib).2.joins = s.joins ∧
    (create_app s tid aid name mode d i ib).2.next_tenant_id = s.next_tenant_id := by
  unfold create_app
  repeat' split
  all_goals exact ⟨rfl, rfl, rfl⟩

theorem tenant_frame_delete_app (s : DB) (app_id aid : Nat) :
    (delete_app s app_id aid).2.tenants = s.tenants ∧
    (delete_app s app_id aid).2.joins = s.joins ∧
    (delete_app s app_id aid).2.next_tenant_id = s.next_tenant_id := by
  unfold delete_app
  repeat' split
  all_goals exact ⟨rfl, rfl, rfl⟩

theorem tenant_frame_archive_app (s : DB) (app_id aid : Nat) :
    (archive_app s app_id aid).2.tenants = s.tenants ∧
    (archive_app s app_id aid).2.joins = s.joins ∧
    (archive_app s app_id aid).2.next_tenant_id = s.next_tenant_id := by
  unfold archive_app
  repeat' split
  all_goals exact ⟨rfl, rfl, rfl⟩

theorem tenant_frame_unarchive_app (s : DB) (app_id aid : Nat) :
    (unarchive_app s app_id aid).2.tenants = s.tenants ∧
    (unarchive_app s app_id aid).2.joins = s.joins ∧
    (unarchive_app s app_id aid).2.next_tenant_id = s.next_tenant_id := by
  unfold unarchive_app
  repeat' split
  all_goals exact ⟨rfl, rfl, rfl⟩

theorem tenant_frame_toggle_site (s : DB) (app_id aid : Nat) (enable : Bool) :
    (toggle_site s app_id aid enable).2.tenants = s.tenants ∧
    (toggle_site s app_id aid enable).2.joins = s.joins ∧
    (toggle_site s app_id aid enable).2.next_tenant_id = s.next_tenant_id := by
  unfold toggle_site
  repeat' split
  all_goals exact ⟨rfl, rfl, rfl⟩

theorem tenant_frame_toggle_api (s : DB) (app_id aid : Nat) (enable : Bool) :
    (toggle_api s app_id aid enable).2.tenants = s.tenants ∧
    (toggle_api s app_id aid enable).2.joins = s.joins ∧
    (toggle_api s app_id aid enable).2.next_tenant_id = s.next_tenant_id := by
  unfold toggle_api
  repeat' split
  all_goals exact ⟨rfl, rfl, rfl⟩

theorem tenant_frame_add_provider
    (validate : ProviderType → List (String × Json) → Except String Bool)
    (s : DB) (tid : Nat) (name : String) (pt : ProviderType)
    (cr cf qc : List (String × Json)) (cb : Option Nat) :
    (add_provider validate s tid name pt cr cf qc cb).2.tenants = s.tenants ∧
    (add_provider validate s tid name pt cr cf qc cb).2.joins = s.joins ∧
    (add_provider validate s tid name pt cr cf qc cb).2.next_tenant_id = s.next_tenant_id := by
  unfold add_provider
  repeat' split
  all_goals exact ⟨rfl, rfl, rfl⟩

theorem tenant_frame_activate_provider (s : DB) (tid pid : Nat) :
    (activate_provider s tid pid).2.tenants = s.tenants ∧
    (activate_provider s tid pid).2.joins = s.joins ∧
    (activate_provider s tid pid).2.next_tenant_id = s.next_tenant_id := by
  unfold activate_provider
  repeat' split
  all_goals exact ⟨rfl, rfl, rfl⟩

theorem tenant_frame_deactivate_provider (s : DB) (tid pid : Nat) :
    (deactivate_provider s tid pid).2.tenants = s.tenants ∧
    (deactivate_provider s tid pid).2.joins = s.joins ∧
    (deactivate_provider s tid pid).2.next_tenant_id = s.next_tenant_id := by
  unfold deactivate_provider
  repeat' split
  all_goals exact ⟨rfl, rfl, rfl⟩

theorem tenant_frame_delete_provider (s : DB) (tid pid : Nat) :
    (delete_provider s tid pid).2.tenants = s.tenants ∧
    (delete_provider s tid pid).2.joins = s.joins ∧
    (delete_provider s tid pid).2.next_tenant_id = s.next_tenant_id := by
  unfold delete_provider
  repeat' split
  all_goals exact ⟨rfl, rfl, rfl⟩

theorem tenant_frame_login (chk : String → String → Bool) (key : String) (hours : Nat)
    (s : DB) (email password : String) (now : Nat) :
    (login chk key hours s email password now).2.tenants = s.tenants ∧
    (login chk key hours s email password now).2.joins = s.joins ∧
    (login chk key hours s email password now).2.next_tenant_id = s.next_tenant_id := by
  unfold login
  repeat' split
  all_goals exact ⟨rfl, rfl, rfl⟩

theorem wfdb_of_frame {s s' : DB} (ht : s'.tenants = s.tenants) (hj : s'.joins = s.joins)
    (hn : s'.next_tenant_id = s.next_tenant_id) (hwf : WfDB s) : WfDB s' := by
  unfold WfDB
  rw [ht, hj, hn]
  exact hwf

theorem wf_add_member_repo {s : DB} (hwf : WfDB s) (tid aid : Nat) (role : TenantRole)
    (hex : ∃ t ∈ s.tenants, t.id = tid) :
    WfDB (add_member_repo s tid aid role) := by
  unfold add_member_repo
  split
  · exact hwf
  · refine ⟨hwf.1, ?_⟩
    intro j hj
    simp only [List.mem_append, List.mem_singleton] at hj
    rcases hj with hj | rfl
    · exact hwf.2 j hj
    · exact hex

theorem wf_create_result (s : DB) (oid : Nat) (name : String) (plan : TenantPlan)
    (hwf : WfDB s) :
    WfDB (add_member_repo
      { s with
        tenants := s.tenants ++
          [{ id := s.next_tenant_id, name := name, plan := plan, status := .active }]
        next_tenant_id := s.next_tenant_id + 1 }
      s.next_tenant_id oid TenantRole.owner) := by
  apply wf_add_member_repo
  · constructor
    · intro t ht
      simp only [List.mem_append, List.mem_singleton] at ht
      rcases ht with ht | rfl
      · have := hwf.1 t ht
        simp only
        omega
      · simp
    · intro j hj
      obtain ⟨t, htm, hid⟩ := hwf.2 j hj
      exact ⟨t, List.mem_append_left _ htm, hid⟩
  · exact ⟨_, List.mem_append_right _ (List.mem_singleton_self _), rfl⟩

theorem tenant_exists_of_get {s : DB} {tid : Nat} {t : Tenant}
    (h : get_tenant_by_id s tid = some t) : ∃ t2 ∈ s.tenants, t2.id = tid := by
  have hm := List.mem_of_find?_eq_some h
  have hp := List.find?_some h
  simp only [beq_iff_eq] at hp
  exact ⟨t, hm, hp⟩

theorem wf_step {s s' : DB} (hst : Step s s') (hwf : WfDB s) : WfDB s' := by
  cases hst with
  | create_tenant s name oid plan =>
    unfold create_tenant
    repeat' split
    any_goals exact hwf
    dsimp only
    exact wf_create_result s oid (py_strip name) plan hwf
  | add_member s tid2 aid2 role oid =>
    unfold add_member
    repeat' split
    any_goals exact hwf
    exact wf_add_member_repo hwf _ _ _ (tenant_exists_of_get (by assumption))
  | remove_member s tid2 aid2 oid =>
    unfold remove_member
    repeat' split
    any_goals exact hwf
    refine ⟨hwf.1, ?_⟩
    intro j hj
    exact hwf.2 j (List.mem_of_mem_filter hj)
  | update_member_role s tid2 aid2 nrole oid =>
    unfold update_member_role
    repeat' split
    any_goals exact hwf
    refine ⟨hwf.1, ?_⟩
    intro j hj
    simp only [update_member_role_repo, List.mem_map] at hj
    obtain ⟨j0, hj0, rfl⟩ := hj
    obtain ⟨t, htm, hid⟩ := hwf.2 j0 hj0
    refine ⟨t, htm, ?_⟩
    split
    · exact hid
    · exact hid
  | update_tenant s tid2 oid n p st =>
    unfold update_tenant
    repeat' split
    any_goals exact hwf
    dsimp only
    constructor
    · intro t ht
      simp only [List.mem_map] at ht
      obtain ⟨t0, ht0, rfl⟩ := ht
      have hb := hwf.1 t0 ht0
      split
      · exact hb
      · exact hb
    · intro j hj
      obtain ⟨t, htm, hid⟩ := hwf.2 j hj
      refine ⟨_, List.mem_map_of_mem
        (fun t : Tenant => if (t.id == tid2) = true then
          { id := t.id, name := n.getD t.name, plan := p.getD t.plan,
            status := st.getD t.status } else t) htm, ?_⟩
      split
      · exact hid
      · exact hid
  | create_app s tid2 aid2 name mode d i ib =>
    obtain ⟨h1, h2, h3⟩ := tenant_frame_create_app s tid2 aid2 name mode d i ib
    exact wfdb_of_frame h1 h2 h3 hwf
  | delete_app s app_id aid2 =>
    obtain ⟨h1, h2, h3⟩ := tenant_frame_delete_app s app_id aid2
    exact wfdb_of_frame h1 h2 h3 hwf
  | archive_app s app_id aid2 =>
    obtain ⟨h1, h2, h3⟩ := tenant_frame_archive_app s app_id aid2
    exact wfdb_of_frame h1 h2 h3 hwf
  | unarchive_app s app_id aid2 =>
    obtain ⟨h1, h2, h3⟩ := tenant_frame_unarchive_app s app_id aid2
    exact wfdb_of_frame h1 h2 h3 hwf
  | toggle_site s app_id aid2 enable =>
    obtain ⟨h1, h2, h3⟩ := tenant_frame_toggle_site s app_id aid2 enable
    exact wfdb_of_frame h1 h2 h3 hwf
  | toggle_api s app_id aid2 enable =>
    obtain ⟨h1, h2, h3⟩ := tenant_frame_toggle_api s app_id aid2 enable
    exact wfdb_of_frame h1 h2 h3 hwf
  | add_provider validate s tid2 name pt cr cf qc cb =>
    obtain ⟨h1, h2, h3⟩ := tenant_frame_add_provider validate s tid2 name pt cr cf qc cb
    exact wfdb_of_frame h1 h2 h3 hwf
  | activate_provider s tid2 pid =>
    obtain ⟨h1, h2, h3⟩ := tenant_frame_activate_provider s tid2 pid
    exact wfdb_of_frame h1 h2 h3 hwf
  | deactivate_provider s tid2 pid =>
    obtain ⟨h1, h2, h3⟩ := tenant_frame_deactivate_provider s tid2 pid
    exact wfdb_of_frame h1 h2 h3 hwf
  | delete_provider s tid2 pid =>
    obtain ⟨h1, h2, h3⟩ := tenant_frame_delete_provider s tid2 pid
    exact wfdb_of_frame h1 h2 h3 hwf
  | login chk key hours s email password now =>
    obtain ⟨h1, h2, h3⟩ := tenant_frame_login chk key hours s email password now
    exact wfdb_of_frame h1 h2 h3 hwf

theorem wf_steps {s s' : DB} (hst : Steps s s') (hwf : WfDB s) : WfDB s' := by
  induction hst with
  | refl => exact hwf
  | tail _ hstep ih => exact wf_step hstep ih

theorem create_tenant_owner {s : DB} (hwf : WfDB s) {name : String} {oid : Nat}
    {plan : TenantPlan} {t : Tenant} {s' : DB}
    (h : create_tenant s name oid plan = (Except.ok t, s')) :
    get_member_role s' t.id oid = some TenantRole.owner := by
  have hfresh : s.joins.find? (fun j =>
      j.tenant_id == s.next_tenant_id && j.account_id == oid) = none := by
    rw [List.find?_eq_none]
    intro j hj hc
    simp only [Bool.and_eq_true, beq_iff_eq] at hc
    obtain ⟨t2, ht2, hid⟩ := hwf.2 j hj
    have := hwf.1 t2 ht2
    omega
  unfold create_tenant at h
  repeat' split at h
  any_goals simp at h
  obtain ⟨h1, h2⟩ := h
  subst h2
  subst h1
  unfold get_member_role get_member_join add_member_repo get_member_join
  try dsimp only
  rw [hfresh]
  try dsimp only
  rw [List.find?_append, hfresh]
  simp

/-! ## Claim C1: owner invariant -/

/-- A store with one tenant (id 0, named T) whose creator (account 0) is its
owner. -/
def c1_state : DB :=
  { accounts := [⟨0, "o@x.com", "h", "O", .active, none⟩]
    tenants := [⟨0, "T", .free, .active⟩]
    joins := [⟨0, 0, .owner⟩]
    apps := []
    providers := []
    next_tenant_id := 1
    next_app_id := 0
    next_provider_id := 0 }

/-- The same store with account 1 also a plain member of tenant 0. -/
def c1_member_state : DB :=
  { c1_state with
    accounts := c1_state.accounts ++ [⟨1, "m@x.com", "h", "M", .active, none⟩]
    joins := c1_state.joins ++ [⟨0, 1, .member⟩] }

/-- Claim C1, as stated, is false: with the tenant owner (account 0) as
target and a non-member (account 5) as operator, `remove_member` raises
`AuthorizationError` ("Only owner or admin can remove members"), not the
claimed `BusinessLogicError` — the operator-permission gate fires before the
owner check, so the claimed exception type is wrong for unprivileged
operators. -/
theorem owner_invariant_counterexample :
    get_member_role c1_state 0 0 = some TenantRole.owner ∧
    (remove_member c1_state 0 0 5).1
      = Except.error (Err.authorization_error "Only owner or admin can remove members") ∧
    ∀ m, (remove_member c1_state 0 0 5).1 ≠ Except.error (Err.business_logic_error m) := by
  refine ⟨rfl, rfl, ?_⟩
  intro m h
  rw [show (remove_member c1_state 0 0 5).1
    = Except.error (Err.authorization_error "Only owner or admin can remove members")
    from rfl] at h
  simp at h

/-- Claim C1 (amended): in a well-formed store the account that creates a
tenant via `create_tenant` holds role `owner` immediately afterwards;
well-formedness and any existing owner membership are preserved by every
sequence of service calls; `remove_member` with the owner as target always
fails — with `BusinessLogicError` ("Cannot remove tenant owner") exactly when
the tenant exists and the operator holds owner or admin, and with another
error (`AuthorizationError`/`ResourceNotFoundError`) otherwise; and
`update_member_role` always fails when the target currently holds owner
(`BusinessLogicError` "Cannot change owner role" for an owner operator on an
existing tenant) or when the requested new role is owner (`BusinessLogicError`
"Cannot set member to owner role" for an owner operator on an existing
non-owner member). -/
theorem tenant_owner_invariant :
    (∀ (s : DB) name oid plan t s', WfDB s →
        create_tenant s name oid plan = (Except.ok t, s') →
        get_member_role s' t.id oid = some TenantRole.owner)
  ∧ (∀ s s' : DB, Steps s s' → WfDB s → WfDB s')
  ∧ (∀ (s s' : DB) tid aid, Steps s s' →
        get_member_role s tid aid = some TenantRole.owner →
        get_member_role s' tid aid = some TenantRole.owner)
  ∧ (∀ (s : DB) tid aid op, get_member_role s tid aid = some TenantRole.owner →
        ∃ e, (remove_member s tid aid op).1 = Except.error e)
  ∧ (∀ (s : DB) tid aid op r, get_tenant_by_id s tid ≠ none →
        get_member_role s tid aid = some TenantRole.owner →
        get_member_role s tid op = some r → (r = .owner ∨ r = .admin) →
        (remove_member s tid aid op).1
          = Except.error (Err.business_logic_error "Cannot remove tenant owner"))
  ∧ (∀ (s : DB) tid aid op nr, get_member_role s tid aid = some TenantRole.owner →
        ∃ e, (update_member_role s tid aid nr op).1 = Except.error e)
  ∧ (∀ (s : DB) tid aid op, get_tenant_by_id s tid ≠ none →
        get_member_role s tid aid = some TenantRole.owner →
        get_member_role s tid op = some TenantRole.owner →
        ∀ nr, (update_member_role s tid aid nr op).1
          = Except.error (Err.business_logic_error "Cannot change owner role"))
  ∧ (∀ (s : DB) tid aid op, ∃ e,
        (update_member_role s tid aid TenantRole.owner op).1 = Except.error e)
  ∧ (∀ (s : DB) tid aid op r, get_tenant_by_id s tid ≠ none →
        get_member_role s tid op = some TenantRole.owner →
        get_member_role s tid aid = some r → r ≠ TenantRole.owner →
        (update_member_role s tid aid TenantRole.owner op).1
          = Except.error (Err.business_logic_error "Cannot set member to owner role")) := by
  refine ⟨fun s name oid plan t s' hwf h => create_tenant_owner hwf h,
    fun s s' hst hwf => wf_steps hst hwf,
    fun s s' tid aid hst h => owner_role_steps hst tid aid h,
    ?_, ?_, ?_, ?_, ?_, ?_⟩
  · intro s tid aid op h
    unfold remove_member
    cases hT : get_tenant_by_id s tid with
    | none => exact ⟨_, rfl⟩
    | some tval =>
      simp only
      cases hO : get_member_role s tid op with
      | none => exact ⟨_, rfl⟩
      | some orole =>
        simp only
        split
        · exact ⟨_, rfl⟩
        · simp [h]
  · intro s tid aid op r hT h hO hr
    obtain ⟨tval, hTv⟩ : ∃ tval, get_tenant_by_id s tid = some tval := by
      cases hx : get_tenant_by_id s tid with
      | none => exact absurd hx hT
      | some tval => exact ⟨tval, rfl⟩
    unfold remove_member
    simp only [hTv, hO]
    rw [if_neg (by rcases hr with rfl | rfl <;> simp)]
    simp [h]
  · intro s tid aid op nr h
    unfold update_member_role
    cases hT : get_tenant_by_id s tid with
    | none => exact ⟨_, rfl⟩
    | some tval =>
      simp only
      split
      · exact ⟨_, rfl⟩
      · simp [h]
  · intro s tid aid op hT h hO nr
    obtain ⟨tval, hTv⟩ : ∃ tval, get_tenant_by_id s tid = some tval := by
      cases hx : get_tenant_by_id s tid with
      | none => exact absurd hx hT
      | some tval => exact ⟨tval, rfl⟩
    unfold update_member_role
    simp only [hTv]
    rw [if_neg (by simp [hO])]
    simp [h]
  · intro s tid aid op
    unfold update_member_role
    cases hT : get_tenant_by_id s tid with
    | none => exact ⟨_, rfl⟩
    | some tval =>
      simp only
      split
      · exact ⟨_, rfl⟩
      · cases hM : get_member_role s tid aid with
        | none => exact ⟨_, rfl⟩
        | some mrole =>
          simp only
          split
          · exact ⟨_, rfl⟩
          · simp
  · intro s tid aid op r hT hO hM hr
    obtain ⟨tval, hTv⟩ : ∃ tval, get_tenant_by_id s tid = some tval := by
      cases hx : get_tenant_by_id s tid with
      | none => exact absurd hx hT
      | some tval => exact ⟨tval, rfl⟩
    unfold update_member_role
    simp only [hTv]
    rw [if_neg (by simp [hO])]
    simp [hM, hr]

/-- A store with one account and no tenants, from which tenant T is created. -/
def c1_base : DB :=
  { accounts := [⟨0, "o@x.com", "h", "O", .active, none⟩]
    tenants := []
    joins := []
    apps := []
    providers := []
    next_tenant_id := 0
    next_app_id := 0
    next_provider_id := 0 }

/-- Concrete instantiation of every conjunct of the amended claim C1. -/
theorem tenant_owner_invariant_witness :
    (WfDB c1_base
      ∧ create_tenant c1_base "T" 0 TenantPlan.free
          = (Except.ok ({ id := 0, name := "T", plan := .free, status := .active } : Tenant),
             c1_state)
      ∧ get_member_role c1_state 0 0 = some TenantRole.owner)
  ∧ WfDB c1_state
  ∧ get_member_role (remove_member c1_state 0 0 5).2 0 0 = some TenantRole.owner
  ∧ (∃ e, (remove_member c1_state 0 0 5).1 = Except.error e)
  ∧ (remove_member c1_state 0 0 0).1
      = Except.error (Err.business_logic_error "Cannot remove tenant owner")
  ∧ (∃ e, (update_member_role c1_state 0 0 TenantRole.member 5).1 = Except.error e)
  ∧ (update_member_role c1_state 0 0 TenantRole.member 0).1
      = Except.error (Err.business_logic_error "Cannot change owner role")
  ∧ (∃ e, (update_member_role c1_state 0 0 TenantRole.owner 5).1 = Except.error e)
  ∧ (update_member_role c1_member_state 0 1 TenantRole.owner 0).1
      = Except.error (Err.business_logic_error "Cannot set member to owner role") := by
  obtain ⟨T1, T2, T3, T4, T5, T6, T7, T8, T9⟩ := tenant_owner_invariant
  have hwf0 : WfDB c1_base := by
    constructor
    · intro t ht
      simp [c1_base] at ht
    · intro j hj
      simp [c1_base] at hj
  refine ⟨⟨hwf0, rfl, T1 c1_base "T" 0 .free _ _ hwf0 rfl⟩, ?_, ?_, ?_, ?_, ?_, ?_, ?_, ?_⟩
  · exact T2 c1_base c1_state
      (Relation.ReflTransGen.single (Step.create_tenant c1_base "T" 0 .free)) hwf0
  · exact T3 c1_state _ 0 0
      (Relation.ReflTransGen.single (Step.remove_member c1_state 0 0 5)) rfl
  · exact T4 c1_state 0 0 5 rfl
  · exact T5 c1_state 0 0 0 .owner (by decide) rfl rfl (Or.inl rfl)
  · exact T6 c1_state 0 0 5 .member rfl
  · exact T7 c1_state 0 0 0 (by decide) rfl rfl .member
  · exact T8 c1_state 0 0 5
  · exact T9 c1_member_state 0 1 0 .member (by decide) rfl rfl (by decide)

/-! ## Claim C2: check_permission truth table -/

/-- Claim C2: `check_permission` returns true exactly when the account holds
a membership role in the tenant and that role is `owner`, or is `admin` with
`admin`/`member` required, or is `member` with `member` required; with no
membership it returns false. -/
theorem check_permission_truth_table (s : DB) (tenant_id account_id : Nat)
    (required_role : TenantRole) :
    (check_permission s tenant_id account_id required_role = true ↔
      ∃ role, get_member_role s tenant_id account_id = some role ∧
        (role = TenantRole.owner
          ∨ (role = TenantRole.admin ∧
              (required_role = TenantRole.admin ∨ required_role = TenantRole.member))
          ∨ (role = TenantRole.member ∧ required_role = TenantRole.member)))
    ∧ (get_member_role s tenant_id account_id = none →
        check_permission s tenant_id account_id required_role = false) := by
  constructor
  · unfold check_permission
    cases hM : get_member_role s tenant_id account_id with
    | none => simp
    | some role =>
      cases role with
      | owner => simp
      | admin => cases required_role <;> simp
      | member => cases required_role <;> simp
  · intro h
    unfold check_permission
    rw [h]

/-- Concrete instantiation of claim C2: in the one-tenant store, the member
account passes a `member` check but fails an `admin` check, and a stranger
fails every check. -/
theorem check_permission_truth_table_witness :
    (check_permission c1_member_state 0 1 TenantRole.member = true ∧
      ∃ role, get_member_role c1_member_state 0 1 = some role ∧
        (role = TenantRole.owner
          ∨ (role = TenantRole.admin ∧
              (TenantRole.member = TenantRole.admin ∨ (TenantRole.member : TenantRole) = TenantRole.member))
          ∨ (role = TenantRole.member ∧ (TenantRole.member : TenantRole) = TenantRole.member)))
    ∧ check_permission c1_member_state 0 5 TenantRole.member = false := by
  refine ⟨⟨rfl, ?_⟩, ?_⟩
  · exact (check_permission_truth_table c1_member_state 0 1 TenantRole.member).1.mp rfl
  · exact (check_permission_truth_table c1_member_state 0 5 TenantRole.member).2 rfl

/-! ## Claim C3: add_provider atomicity on credential failure -/

/-- An adapter-validation oracle that raises on every input, as the OpenAI
adapter does for credentials without an `api_key`. -/
def always_raises : ProviderType → List (String × Json) → Except String Bool :=
  fun _ _ => Except.error "api_key is required"

/-- Claim C3, as stated, is false: with empty credentials — an input on which
the adapter's `validate_credentials` raises — `add_provider` raises
`ValidationError` ("Credentials are required"), not a `BusinessLogicError`
starting with "Invalid credentials: ", because the emptiness check precedes
the adapter call. -/
theorem add_provider_counterexample :
    (add_provider always_raises c1_state 0 "p" ProviderType.openai [] [] [] none).1
      = Except.error (Err.validation_error "Credentials are required")
    ∧ ∀ m, (add_provider always_raises c1_state 0 "p" ProviderType.openai [] [] [] none).1
      ≠ Except.error (Err.business_logic_error m) := by
  refine ⟨rfl, ?_⟩
  intro m h
  rw [show (add_provider always_raises c1_state 0 "p" ProviderType.openai [] [] [] none).1
    = Except.error (Err.validation_error "Credentials are required") from rfl] at h
  simp at h

/-- Claim C3 (amended): for every existing tenant, valid non-conflicting
name, and non-empty credentials on which the adapter's validation raises
(message `msg`), `add_provider` raises `BusinessLogicError` with message
exactly `"Invalid credentials: " ++ msg`, and the store is unchanged — no
`ModelProvider` row is created. -/
theorem add_provider_invalid_credentials
    (validate : ProviderType → List (String × Json) → Except String Bool) (s : DB)
    (tenant_id : Nat) (name : String) (provider_type : ProviderType)
    (credentials config quota_config : List (String × Json)) (created_by : Option Nat)
    (msg : String)
    (hT : get_tenant_by_id s tenant_id ≠ none)
    (hn1 : py_strip name ≠ "") (hn2 : ¬ name.length > 100)
    (hdup : get_active_by_tenant_and_name s tenant_id name = none)
    (hcred : credentials ≠ [])
    (hval : validate provider_type credentials = Except.error msg) :
    add_provider validate s tenant_id name provider_type credentials config
        quota_config created_by
      = (Except.error (Err.business_logic_error ("Invalid credentials: " ++ msg)), s) := by
  obtain ⟨tval, hTv⟩ : ∃ tval, get_tenant_by_id s tenant_id = some tval := by
    cases hx : get_tenant_by_id s tenant_id with
    | none => exact absurd hx hT
    | some tval => exact ⟨tval, rfl⟩
  unfold add_provider
  simp only [hTv]
  rw [if_neg hn1, if_neg hn2]
  simp only [hdup]
  rw [if_neg (by simp [List.isEmpty_iff, hcred])]
  simp only [hval]

/-- Concrete instantiation of the amended claim C3. -/
theorem add_provider_invalid_credentials_witness :
    add_provider always_raises c1_state 0 "p" ProviderType.openai
        [("base_url", Json.str "http://x")] [] [] none
      = (Except.error (Err.business_logic_error "Invalid credentials: api_key is required"),
         c1_state) := by
  exact add_provider_invalid_credentials always_raises c1_state 0 "p" ProviderType.openai
    [("base_url", Json.str "http://x")] [] [] none "api_key is required"
    (by decide) (by decide) (by decide) rfl (by simp) rfl

/-! ## Claim C4: active-only name uniqueness asymmetry -/

/-- Claim C4: with the tenant existing and the name valid, `add_provider`
raises `ResourceConflictError` when some *active* provider of the tenant
already carries the name (store unchanged), yet succeeds — appending a fresh
row with `is_active = true` — when every provider of the tenant with that
name is inactive, the credentials being non-empty and accepted by the
adapter. -/
theorem add_provider_active_name_asymmetry :
    (∀ (validate : ProviderType → List (String × Json) → Except String Bool) (s : DB)
        (tenant_id : Nat) (name : String) (provider_type : ProviderType)
        (credentials config quota_config : List (String × Json)) (created_by : Option Nat)
        (p0 : ModelProvider),
      p0 ∈ s.providers → p0.tenant_id = tenant_id → p0.name = name → p0.is_active = true →
      get_tenant_by_id s tenant_id ≠ none →
      py_strip name ≠ "" → ¬ name.length > 100 →
      add_provider validate s tenant_id name provider_type credentials config
          quota_config created_by
        = (Except.error (Err.resource_conflict_error
            ("Provider with name '" ++ name ++ "' already exists")), s))
  ∧ (∀ (validate : ProviderType → List (String × Json) → Except String Bool) (s : DB)
        (tenant_id : Nat) (name : String) (provider_type : ProviderType)
        (credentials config quota_config : List (String × Json)) (created_by : Option Nat)
        (b : Bool),
      (∀ p ∈ s.providers, p.tenant_id = tenant_id → p.name = name → p.is_active = false) →
      get_tenant_by_id s tenant_id ≠ none →
      py_strip name ≠ "" → ¬ name.length > 100 →
      credentials ≠ [] →
      validate provider_type credentials = Except.ok b →
      ∃ p : ModelProvider,
        add_provider validate s tenant_id name provider_type credentials config
            quota_config created_by
          = (Except.ok p,
            { s with providers := s.providers ++ [p],
                     next_provider_id := s.next_provider_id + 1 })
        ∧ p.is_active = true ∧ p.tenant_id = tenant_id ∧ p.name = name) := by
  constructor
  · intro validate s tenant_id name provider_type credentials config quota_config
      created_by p0 hmem hpt hpn hpa hT hn1 hn2
    obtain ⟨tval, hTv⟩ : ∃ tval, get_tenant_by_id s tenant_id = some tval := by
      cases hx : get_tenant_by_id s tenant_id with
      | none => exact absurd hx hT
      | some tval => exact ⟨tval, rfl⟩
    obtain ⟨q, hq⟩ : ∃ q, get_active_by_tenant_and_name s tenant_id name = some q := by
      have : (s.providers.find? (fun p =>
          p.tenant_id == tenant_id && p.name == name && p.is_active)).isSome := by
        rw [List.find?_isSome]
        exact ⟨p0, hmem, by simp [hpt, hpn, hpa]⟩
      cases hx : s.providers.find? (fun p =>
          p.tenant_id == tenant_id && p.name == name && p.is_active) with
      | none => rw [hx] at this; simp at this
      | some q => exact ⟨q, hx⟩
    unfold add_provider
    simp only [hTv]
    rw [if_neg hn1, if_neg hn2]
    simp only [hq]
  · intro validate s tenant_id name provider_type credentials config quota_config
      created_by b hall hT hn1 hn2 hcred hval
    obtain ⟨tval, hTv⟩ : ∃ tval, get_tenant_by_id s tenant_id = some tval := by
      cases hx : get_tenant_by_id s tenant_id with
      | none => exact absurd hx hT
      | some tval => exact ⟨tval, rfl⟩
    have hnone : get_active_by_tenant_and_name s tenant_id name = none := by
      unfold get_active_by_tenant_and_name
      rw [List.find?_eq_none]
      intro p hp hc
      simp only [Bool.and_eq_true, beq_iff_eq] at hc
      have := hall p hp hc.1.1 hc.1.2
      rw [this] at hc
      exact Bool.noConfusion hc.2
    refine ⟨{ id := s.next_provider_id, tenant_id := tenant_id, name := name,
              provider_type := provider_type,
              encrypted_credentials := encrypt_credentials credentials,
              is_active := true, config := config, quota_config := quota_config,
              created_by := created_by }, ?_, rfl, rfl, rfl⟩
    unfold add_provider
    simp only [hTv]
    rw [if_neg hn1, if_neg hn2]
    simp only [hnone]
    rw [if_neg (by simp [List.isEmpty_iff, hcred])]
    simp only [hval]

/-- A store whose sole provider of tenant 0 named "p" is active. -/
def c1_provider_state : DB :=
  { c1_state with
    providers := [{ id := 0, tenant_id := 0, name := "p",
                    provider_type := .openai, encrypted_credentials := "\x7b\x7d",
                    is_active := true, config := [], quota_config := [],
                    created_by := none }]
    next_provider_id := 1 }

/-- A store whose sole provider of tenant 0 named "p" is inactive. -/
def c4_state : DB :=
  { c1_state with
    providers := [{ id := 0, tenant_id := 0, name := "p",
                    provider_type := .openai, encrypted_credentials := "\x7b\x7d",
                    is_active := false, config := [], quota_config := [],
                    created_by := none }]
    next_provider_id := 1 }

/-- An adapter-validation oracle that accepts every input. -/
def always_ok : ProviderType → List (String × Json) → Except String Bool :=
  fun _ _ => Except.ok true

/-- Concrete instantiation of claim C4: adding "p" while an active "p" row
exists conflicts; adding "p" over only an inactive "p" row succeeds with a
fresh active row. -/
theorem add_provider_active_name_asymmetry_witness :
    (add_provider always_ok c1_provider_state 0 "p" ProviderType.openai
        [("api_key", Json.str "x")] [] [] none
      = (Except.error (Err.resource_conflict_error "Provider with name 'p' already exists"),
         c1_provider_state))
  ∧ ∃ p : ModelProvider,
      add_provider always_ok c4_state 0 "p" ProviderType.openai
          [("api_key", Json.str "x")] [] [] none
        = (Except.ok p,
          { c4_state with providers := c4_state.providers ++ [p],
                          next_provider_id := c4_state.next_provider_id + 1 })
      ∧ p.is_active = true ∧ p.tenant_id = 0 ∧ p.name = "p" := by
  constructor
  · exact add_provider_active_name_asymmetry.1 always_ok c1_provider_state 0 "p"
      ProviderType.openai [("api_key", Json.str "x")] [] [] none
      { id := 0, tenant_id := 0, name := "p", provider_type := .openai,
        encrypted_credentials := "\x7b\x7d", is_active := true, config := [],
        quota_config := [], created_by := none }
      (by simp [c1_provider_state]) rfl rfl rfl (by decide) (by decide) (by decide)
  · exact add_provider_active_name_asymmetry.2 always_ok c4_state 0 "p"
      ProviderType.openai [("api_key", Json.str "x")] [] [] none true
      (by intro p hp h1 h2
          simp only [c4_state, List.mem_singleton] at hp
          rw [hp])
      (by decide) (by decide) (by decide) (by simp) rfl

/-! ## Claim C5: token round-trip -/

/-- Claim C5: verifying the token issued for an active, retrievable account
(before its expiry) returns an account with the same id; and any token whose
`exp` claim lies in the past makes `verify_token` raise
`AuthenticationError`. -/
theorem token_round_trip :
    (∀ (s : DB) (secret_key : String) (token_expiry_hours : Nat) (a : Account)
        (now t1 : Nat),
      get_account_by_id s a.id = some a → a.status = AccountStatus.active →
      t1 < now + token_expiry_hours * 3600 →
      ∃ a2, verify_token s secret_key
          (generate_token secret_key token_expiry_hours a.id a.email now) t1
        = Except.ok a2 ∧ a2.id = a.id)
  ∧ (∀ (s : DB) (secret_key : String) (token : JwtToken) (now : Nat),
      token.payload.exp < now →
      ∃ m, verify_token s secret_key token now
        = Except.error (Err.authentication_error m)) := by
  constructor
  · intro s secret_key hours a now t1 hacct hstatus ht
    refine ⟨a, ?_, rfl⟩
    unfold verify_token jwt_decode generate_token jwt_encode
    rw [if_neg (by simp)]
    rw [if_neg (by simp only; omega)]
    simp only [hacct]
    rw [if_pos (by simp [Account.is_active, hstatus])]
  · intro s secret_key token now hexp
    unfold verify_token jwt_decode
    by_cases hk : token.key = secret_key
    · rw [if_neg (by simp [hk])]
      rw [if_pos (by omega)]
      exact ⟨_, rfl⟩
    · rw [if_pos hk]
      exact ⟨_, rfl⟩

/-- Concrete instantiation of claim C5: issue a token for the active owner
account at time 0 with a 1-hour expiry and verify it at time 10; and verify
an expired token at time 10. -/
theorem token_round_trip_witness :
    (∃ a2, verify_token c1_state "k" (generate_token "k" 1 0 "o@x.com" 0) 10
        = Except.ok a2 ∧ a2.id = 0)
  ∧ (∃ m, verify_token c1_state "k"
        ⟨{ account_id := some 0, email := "e", exp := 5, iat := 0 }, "k"⟩ 10
      = Except.error (Err.authentication_error m)) := by
  constructor
  · exact token_round_trip.1 c1_state "k" 1
      ⟨0, "o@x.com", "h", "O", .active, none⟩ 0 10 rfl rfl (by omega)
  · exact token_round_trip.2 c1_state "k"
      ⟨{ account_id := some 0, email := "e", exp := 5, iat := 0 }, "k"⟩ 10 (by decide)

/-! ## Claim C9: login checks account status before the password -/

/-- Claim C9: for a stored banned (resp. inactive) account, `login` raises
`AuthenticationError` with the status-specific message for every supplied
password and every behaviour of the password-hash check — the quantification
over the `check_password_hash` oracle shows the password is never
consulted. -/
theorem login_status_before_password :
    (∀ (check_password_hash : String → String → Bool) (secret_key : String)
        (token_expiry_hours : Nat) (s : DB) (email password : String) (now : Nat)
        (a : Account),
      get_account_by_email s email = some a → a.status = AccountStatus.banned →
      login check_password_hash secret_key token_expiry_hours s email password now
        = (Except.error (Err.authentication_error "Account has been banned"), s))
  ∧ (∀ (check_password_hash : String → String → Bool) (secret_key : String)
        (token_expiry_hours : Nat) (s : DB) (email password : String) (now : Nat)
        (a : Account),
      get_account_by_email s email = some a → a.status = AccountStatus.inactive →
      login check_password_hash secret_key token_expiry_hours s email password now
        = (Except.error (Err.authentication_error "Account is inactive"), s)) := by
  constructor
  · intro chk key hours s email password now a hacct hstatus
    unfold login
    simp only [hacct]
    rw [if_pos hstatus]
  · intro chk key hours s email password now a hacct hstatus
    unfold login
    simp only [hacct]
    rw [if_neg (by simp [hstatus]), if_pos hstatus]

/-- A store holding a banned and an inactive account. -/
def c9_state : DB :=
  { c1_state with
    accounts := [⟨0, "b@x.com", "h", "B", .banned, none⟩,
                 ⟨1, "i@x.com", "h", "I", .inactive, none⟩] }

/-- Concrete instantiation of claim C9: even with a hash check that accepts
everything (so a wrong password would pass), the status-specific errors are
raised. -/
theorem login_status_before_password_witness :
    login (fun _ _ => true) "k" 1 c9_state "b@x.com" "wrong" 0
      = (Except.error (Err.authentication_error "Account has been banned"), c9_state)
  ∧ login (fun _ _ => true) "k" 1 c9_state "i@x.com" "wrong" 0
      = (Except.error (Err.authentication_error "Account is inactive"), c9_state) := by
  constructor
  · exact login_status_before_password.1 (fun _ _ => true) "k" 1 c9_state
      "b@x.com" "wrong" 0 ⟨0, "b@x.com", "h", "B", .banned, none⟩ rfl rfl
  · exact login_status_before_password.2 (fun _ _ => true) "k" 1 c9_state
      "i@x.com" "wrong" 0 ⟨1, "i@x.com", "h", "I", .inactive, none⟩ rfl rfl

/-! ## Claim C8: archive/unarchive visibility round-trip -/

theorem get_tenant_apps_active_inv {s : DB} {tid aid : Nat} {l : List App}
    (h : get_tenant_apps s tid aid false = Except.ok l) :
    l = get_active_apps_by_tenant s tid := by
  unfold get_tenant_apps at h
  split at h
  · exact absurd h (by simp)
  · split at h
    · exact absurd h (by simp)
    · rw [if_neg (by simp)] at h
      exact (Except.ok.inj h).symm

/-- Claim C8: a created app starts with status `normal` and sits in the
store; after `archive_app` its status is `archived` and no app with its id
appears in `get_tenant_apps` without archived apps; after `unarchive_app` its
status is `normal` and it appears there again; and `get_tenant_apps` without
archived apps returns exactly the tenant's apps whose status is `normal`. -/
theorem archive_unarchive_visibility :
    (∀ (s : DB) (tid aid : Nat) (name : String) (mode : AppMode)
        (d i ib : Option String) (app : App) (s' : DB),
      create_app s tid aid name mode d i ib = (Except.ok app, s') →
      app.status = AppStatus.normal ∧ app ∈ s'.apps)
  ∧ (∀ (s : DB) (app_id aid : Nat) (app : App) (s' : DB),
      archive_app s app_id aid = (Except.ok app, s') →
      app.status = AppStatus.archived ∧
      ∀ (q : Nat) (l : List App), get_tenant_apps s' app.tenant_id q false = Except.ok l →
        ∀ b ∈ l, b.id ≠ app_id)
  ∧ (∀ (s : DB) (app_id aid : Nat) (app : App) (s' : DB),
      unarchive_app s app_id aid = (Except.ok app, s') →
      app.status = AppStatus.normal ∧
      ∀ (q : Nat) (l : List App), get_tenant_apps s' app.tenant_id q false = Except.ok l →
        app ∈ l)
  ∧ (∀ (s : DB) (tid q : Nat) (l : List App),
      get_tenant_apps s tid q false = Except.ok l →
      ∀ b : App, b ∈ l ↔ b ∈ s.apps ∧ b.tenant_id = tid ∧ b.status = AppStatus.normal) := by
  refine ⟨?_, ?_, ?_, ?_⟩
  · intro s tid aid name mode d i ib app s' h
    unfold create_app at h
    repeat' split at h
    any_goals simp at h
    obtain ⟨h1, h2⟩ := h
    subst h2
    subst h1
    exact ⟨rfl, List.mem_append_right _ (List.mem_singleton_self _)⟩
  · intro s app_id aid app s' h
    unfold archive_app at h
    repeat' split at h
    any_goals simp at h
    obtain ⟨h1, h2⟩ := h
    subst h2
    subst h1
    refine ⟨rfl, ?_⟩
    intro q l hl b hb hid
    have hl2 := get_tenant_apps_active_inv hl
    subst hl2
    rw [get_active_apps_by_tenant, List.mem_filter] at hb
    obtain ⟨hmem, hpred⟩ := hb
    simp only [app_update, List.mem_map] at hmem
    obtain ⟨a0, ha0, rfl⟩ := hmem
    by_cases hc : a0.id = app_id
    · simp [hc] at hpred
    · simp [hc] at hid
  · intro s app_id aid app s' h
    unfold unarchive_app at h
    repeat' split at h
    any_goals simp at h
    rename_i x a0 heq hm
    obtain ⟨h1, h2⟩ := h
    subst h2
    subst h1
    refine ⟨rfl, ?_⟩
    intro q l hl
    have hl2 := get_tenant_apps_active_inv hl
    subst hl2
    rw [get_active_apps_by_tenant, List.mem_filter]
    have ha0 : a0 ∈ s.apps :=
      List.mem_of_find?_eq_some (p := fun a : App => a.id == app_id) heq
    have hid : (a0.id == app_id) = true :=
      List.find?_some (p := fun a : App => a.id == app_id) heq
    constructor
    · simp only [app_update, List.mem_map]
      refine ⟨a0, ha0, ?_⟩
      simp [hid]
    · simp
  · intro s tid q l hl b
    have hl2 := get_tenant_apps_active_inv hl
    subst hl2
    rw [get_active_apps_by_tenant, List.mem_filter]
    simp

/-- The app created in the C8 scenario. -/
def c8_app : App :=
  { id := 0, tenant_id := 0, name := "A", description := none, mode := .chat,
    icon := "🤖", icon_background := "#E0F2FE", enable_site := true,
    enable_api := true, status := .normal, created_by := 0 }

/-- The store after creating the app. -/
def c8_s1 : DB := (create_app c1_state 0 0 "A" AppMode.chat none none none).2

/-- The store after archiving it. -/
def c8_s2 : DB := (archive_app c8_s1 0 0).2

/-- The store after unarchiving it again. -/
def c8_s3 : DB := (unarchive_app c8_s2 0 0).2

/-- Concrete instantiation of claim C8: create, archive (gone from the
active listing), unarchive (back again). -/
theorem archive_unarchive_visibility_witness :
    (c8_app.status = AppStatus.normal ∧ c8_app ∈ c8_s1.apps)
  ∧ (({ c8_app with status := AppStatus.archived } : App).status = AppStatus.archived
      ∧ ∀ b ∈ get_active_apps_by_tenant c8_s2 0, b.id ≠ 0)
  ∧ (c8_app.status = AppStatus.normal ∧ c8_app ∈ get_active_apps_by_tenant c8_s3 0)
  ∧ (c8_app ∈ get_active_apps_by_tenant c8_s1 0 ↔
      c8_app ∈ c8_s1.apps ∧ c8_app.tenant_id = 0 ∧ c8_app.status = AppStatus.normal) := by
  obtain ⟨H1, H2, H3, H4⟩ := archive_unarchive_visibility
  refine ⟨?_, ?_, ?_, ?_⟩
  · exact H1 c1_state 0 0 "A" AppMode.chat none none none c8_app c8_s1 rfl
  · obtain ⟨hst, habs⟩ := H2 c8_s1 0 0 { c8_app with status := AppStatus.archived } c8_s2 rfl
    exact ⟨hst, habs 0 _ rfl⟩
  · obtain ⟨hst, hin⟩ := H3 c8_s2 0 0 c8_app c8_s3 rfl
    exact ⟨hst, hin 0 _ rfl⟩
  · exact H4 c8_s1 0 0 _ rfl c8_app

/-! ## Claims C6 and C10: SSE stream behaviour -/

theorem process_ok_spec {j : Json} {r : Option LLMResultChunk}
    (h : process_stream_data j = Except.ok r) : spec_chunk j = r := by
  unfold process_stream_data at h
  repeat' (first | split at h | dsimp only at h)
  all_goals first
    | (injection h with h
       subst h
       unfold spec_chunk
       simp_all)
    | cases h

theorem effective_cons_empty {line : String} (h : line = "") (rest : List String) :
    effective_lines (line :: rest) = effective_lines rest := by
  simp [effective_lines, h]

theorem effective_cons_done {line : String} (h1 : ¬ line = "")
    (h2 : strip_data line = "[DONE]") (rest : List String) :
    effective_lines (line :: rest) = [] := by
  simp [effective_lines, h1, h2]

theorem effective_cons_go {line : String} (h1 : ¬ line = "")
    (h2 : ¬ strip_data line = "[DONE]") (rest : List String) :
    effective_lines (line :: rest) = strip_data line :: effective_lines rest := by
  simp [effective_lines, h1, h2]

theorem stream_invoke_lines_cons (loads : String → Option Json) (line : String)
    (rest : List String) (h1 : ¬ line = "") :
    stream_invoke_lines loads (line :: rest)
      = (if strip_data line = "[DONE]" then ([], none)
         else
          match loads (strip_data line) with
          | none => stream_invoke_lines loads rest
          | some data =>
            match process_stream_data data with
            | .error e => ([], some e)
            | .ok none => stream_invoke_lines loads rest
            | .ok (some c) =>
              let r := stream_invoke_lines loads rest
              (c :: r.1, r.2)) := by
  rw [stream_invoke_lines]
  rw [if_neg h1]
  rfl

/-- Claim C6 (amended): provided every line that survives skipping,
stripping, the `[DONE]` cut and JSON parsing decodes to a well-formed payload
(an object with a non-empty `choices` array of objects, etc.), the stream
loop aborts nowhere and yields exactly one chunk per decoded line whose
`delta.content` is non-empty (truthy), in input order — the chunk carrying
that content together with the line's model, finish_reason and index. -/
theorem stream_invoke_chunks (loads : String → Option Json) (lines : List String)
    (hwf : ∀ j ∈ (effective_lines lines).filterMap loads, StreamWellFormed j) :
    stream_invoke_lines loads lines
      = (((effective_lines lines).filterMap loads).filterMap spec_chunk, none) := by
  induction lines with
  | nil => rfl
  | cons line rest ih =>
    by_cases hempty : line = ""
    · have hstep : stream_invoke_lines loads (line :: rest)
          = stream_invoke_lines loads rest := by
        rw [stream_invoke_lines]
        rw [if_pos hempty]
      rw [hstep, effective_cons_empty hempty]
      exact ih (by rw [← effective_cons_empty hempty rest]; exact hwf)
    · rw [stream_invoke_lines_cons loads line rest hempty]
      by_cases hdone : strip_data line = "[DONE]"
      · rw [if_pos hdone, effective_cons_done hempty hdone]
        rfl
      · rw [if_neg hdone]
        have heff := effective_cons_go hempty hdone rest
        cases hload : loads (strip_data line) with
        | none =>
          rw [heff]
          have hfm : (strip_data line :: effective_lines rest).filterMap loads
              = (effective_lines rest).filterMap loads := by
            rw [List.filterMap_cons, hload]
          rw [hfm]
          exact ih (by rw [← hfm, ← heff]; exact hwf)
        | some j =>
          have hmem : j ∈ (effective_lines (line :: rest)).filterMap loads := by
            rw [heff, List.filterMap_cons, hload]
            exact List.mem_cons_self _ _
          obtain ⟨r, hr⟩ := hwf j hmem
          have hspec := process_ok_spec hr
          have hwfrest : ∀ j2 ∈ (effective_lines rest).filterMap loads,
              StreamWellFormed j2 := by
            intro j2 hj2
            refine hwf j2 ?_
            rw [heff, List.filterMap_cons, hload]
            exact List.mem_cons_of_mem _ hj2
          have hfm : (effective_lines (line :: rest)).filterMap loads
              = j :: (effective_lines rest).filterMap loads := by
            rw [heff, List.filterMap_cons, hload]
          cases r with
          | none =>
            simp only [hr, hfm, List.filterMap_cons, hspec]
            exact ih hwfrest
          | some c =>
            simp only [hr, hfm, List.filterMap_cons, hspec, ih hwfrest]

/-- The C6 counterexample input: a syntactically valid JSON line without
`"choices"` followed by a perfectly good data line. -/
def c6_lines : List String :=
  ["\x7b\x7d",
   "data: \x7b\"choices\": [\x7b\"delta\": \x7b\"content\": \"hi\"\x7d\x7d], \"model\": \"m\"\x7d"]

/-- Claim C6, as stated, is false: on this line sequence the claim predicts
exactly one chunk (for the second line, whose `delta.content` is "hi"), but
the stream loop aborts on the first line — `"\x7b\x7d"` parses as JSON yet
`data["choices"]` raises an uncaught `KeyError` — so nothing is yielded. -/
theorem stream_invoke_counterexample :
    stream_invoke_lines parseJson c6_lines = ([], some StreamErr.key_error)
  ∧ ((effective_lines c6_lines).filterMap parseJson).filterMap spec_chunk
      = [{ model := Json.str "m", delta := Json.str "hi",
           finish_reason := Json.null, index := Json.num 0 }] := by
  exact ⟨rfl, rfl⟩

/-- The C6 witness input: an empty line (skipped), a line that fails JSON
parsing (discarded), a content-bearing line, a content-free line, the
`[DONE]` marker, and a line after it (never reached). -/
def c6_good_lines : List String :=
  ["",
   "oops",
   "data: \x7b\"choices\": [\x7b\"delta\": \x7b\"content\": \"hi\"\x7d\x7d], \"model\": \"m\"\x7d",
   "data: \x7b\"choices\": [\x7b\"delta\": \x7b\x7d\x7d]\x7d",
   "data: [DONE]",
   "data: \x7b\"choices\": [\x7b\"delta\": \x7b\"content\": \"zz\"\x7d\x7d], \"model\": \"m\"\x7d"]

/-- Concrete instantiation of the amended claim C6 on `c6_good_lines`. -/
theorem stream_invoke_chunks_witness :
    stream_invoke_lines parseJson c6_good_lines
      = (((effective_lines c6_good_lines).filterMap parseJson).filterMap spec_chunk, none)
    ∧ ((effective_lines c6_good_lines).filterMap parseJson).filterMap spec_chunk
      = [{ model := Json.str "m", delta := Json.str "hi",
           finish_reason := Json.null, index := Json.num 0 }] := by
  refine ⟨stream_invoke_chunks parseJson c6_good_lines ?_, rfl⟩
  intro j hj
  rw [show (effective_lines c6_good_lines).filterMap parseJson
    = [Json.obj [("choices", Json.arr [Json.obj [("delta",
        Json.obj [("content", Json.str "hi")])]]), ("model", Json.str "m")],
       Json.obj [("choices", Json.arr [Json.obj [("delta", Json.obj [])]])]]
    from rfl] at hj
  simp only [List.mem_cons, List.not_mem_nil, or_false] at hj
  rcases hj with rfl | rfl
  · exact ⟨_, rfl⟩
  · exact ⟨_, rfl⟩

/-! ## Claim C10 -/

/-- The C10 input: a good chunk line, then a valid-JSON line with no
`"choices"` key, then another good line. -/
def c10_lines : List String :=
  ["data: \x7b\"choices\": [\x7b\"delta\": \x7b\"content\": \"ok\"\x7d\x7d], \"model\": \"m\"\x7d",
   "\x7b\x7d",
   "data: \x7b\"choices\": [\x7b\"delta\": \x7b\"content\": \"zz\"\x7d\x7d], \"model\": \"m\"\x7d"]

/-- Claim C10: the stream loop's tolerance covers only JSON syntax errors —
`"\x7b\x7d"` is valid JSON but lacks a `"choices"` key, so `data["choices"]`
raises an uncaught `KeyError` (only `json.JSONDecodeError` is caught),
aborting the stream: the chunk before it is yielded, the line is not
discarded, and the good line after it is lost. -/
theorem stream_malformed_line_aborts :
    parseJson "\x7b\x7d" = some (Json.obj [])
  ∧ process_stream_data (Json.obj []) = Except.error StreamErr.key_error
  ∧ stream_invoke_lines parseJson c10_lines
      = ([{ model := Json.str "m", delta := Json.str "ok",
            finish_reason := Json.null, index := Json.num 0 }],
         some StreamErr.key_error) := by
  exact ⟨rfl, rfl, rfl⟩
